import Mathlib

/-!
Verification of the case-search RAG backend core (pipeline orchestrator,
LLM fallback router, reranker, response formatter) against its
natural-language specification.

The Python sources are shallowly embedded: pure string manipulation is
translated to functions on `List Char`; network or model calls (embedding
service, vector index, cross-encoder inference, chat-completion providers)
are oracles passed in as function arguments; exceptions are modelled with
`Except PyError`; real-valued scores are modelled by integers, since only
their linear order matters to the verified properties; the `tenacity`
retry decorators are modelled by an explicit attempt-counting loop that
surfaces the last attempt failure.
-/

namespace CaseSearch

/-- The two Python exception classes raised by the embedded components,
together with the exception message (`str(e)`). -/
inductive PyError where
  | valueError (msg : String)
  | runtimeError (msg : String)
deriving DecidableEq, Repr

/-- `str(e)` for an exception: just its message. -/
def PyError.msg : PyError → String
  | .valueError m => m
  | .runtimeError m => m

/-- A single-quote character, used when embedding Python f-string messages. -/
def sq : String := String.singleton (Char.ofNat 39)

/-- ASCII whitespace, as recognized by the Python regex class `\s` and by
`str.strip` on the ASCII plane. -/
def isPySpace (c : Char) : Bool :=
  c = ' ' || c = '\t' || c = '\n' || c = '\r' || c = '\x0b' || c = '\x0c'

/-- Python `str.strip()` on a character list. -/
def pyStripL (l : List Char) : List Char :=
  ((l.dropWhile isPySpace).reverse.dropWhile isPySpace).reverse

/-- `true` iff the list is nonempty and its first character is not whitespace. -/
def headOk (l : List Char) : Bool :=
  match l with
  | [] => false
  | c :: _ => !isPySpace c

/-- `true` iff the list is nonempty and its last character is not whitespace. -/
def lastOk (l : List Char) : Bool := headOk l.reverse

/-- Python `str.replace(chr(13) ++ chr(10), chr(10))`: left-to-right,
non-overlapping replacement of CRLF pairs by a bare newline. -/
def normCRLF : List Char → List Char
  | '\r' :: '\n' :: rest => '\n' :: normCRLF rest
  | c :: rest => c :: normCRLF rest
  | [] => []

/-- The scanning state for star-run removal: how many asterisks of the
current run have been seen (capped at two, the deletion threshold). -/
inductive StarMode where
  | noStar
  | onePending
  | inRun
deriving DecidableEq, Repr

/-- One-pass scanner for Python `re.sub` of the pattern "star repeated at
least twice" replaced by the empty string: a lone asterisk is held pending
and emitted when its run ends at length one; a run that reaches two
asterisks is deleted to its end.  This deletes exactly the maximal runs of
two or more asterisks, left to right, as the regex substitution does. -/
def removeStarsGo : StarMode → List Char → List Char
  | .noStar, [] => []
  | .onePending, [] => ['*']
  | .inRun, [] => []
  | .noStar, c :: rest =>
    if c = '*' then removeStarsGo .onePending rest else c :: removeStarsGo .noStar rest
  | .onePending, c :: rest =>
    if c = '*' then removeStarsGo .inRun rest else '*' :: c :: removeStarsGo .noStar rest
  | .inRun, c :: rest =>
    if c = '*' then removeStarsGo .inRun rest else c :: removeStarsGo .noStar rest

/-- Python `re.sub` deleting every run of two or more asterisks. -/
def removeStarsL (l : List Char) : List Char := removeStarsGo .noStar l

/-- The literal text of the primary-split header. -/
def faChars : List Char := "Final Answer:".data

/-- Greedy match of the trailing whitespace-then-newline of the primary
split regex: consume the longest whitespace run ending in a newline and
return the remainder of the input.  Mirrors the greedy backtracking of the
regex tail in the Python `re.split` pattern. -/
def chopWsNl : List Char → Option (List Char)
  | [] => none
  | c :: cs =>
    if isPySpace c then
      match chopWsNl cs with
      | some r => some r
      | none => if c = '\n' then some cs else none
    else none

/-- Attempt to match the part of the primary split pattern that follows its
leading newline: optional whitespace, the literal header, then whitespace
ending in a newline.  Returns the remainder after the match. -/
def matchFATail (cs : List Char) : Option (List Char) :=
  let r := cs.dropWhile isPySpace
  if faChars.isPrefixOf r then chopWsNl (r.drop faChars.length) else none

/-- The primary parse of `ResponseService._parse_llm_output`: Python
`re.split` on the pattern "newline, optional whitespace, the literal
Final-Answer header, optional whitespace, newline" with `maxsplit=1`.
Returns the text before and after the leftmost match, or `none` when the
pattern does not occur (the Python `parts` list then has length 1). -/
def splitFA : List Char → Option (List Char × List Char)
  | [] => none
  | c :: cs =>
    if c = '\n' then
      match matchFATail cs with
      | some rest => some ([], rest)
      | none =>
        match splitFA cs with
        | some (a, b) => some (c :: a, b)
        | none => none
    else
      match splitFA cs with
      | some (a, b) => some (c :: a, b)
      | none => none

/-- Case-insensitive literal prefix test (Python `re.IGNORECASE` on ASCII). -/
def ciIsPre : List Char → List Char → Bool
  | [], _ => true
  | _ :: _, [] => false
  | p :: ps, c :: cs => p.toLower = c.toLower && ciIsPre ps cs

/-- Try a list of alternative literal headers at the current position, in
regex alternation order; on a match return the remainder after the header. -/
def findHeader : List (List Char) → List Char → Option (List Char)
  | [], _ => none
  | h :: hs, l => if ciIsPre h l then some (l.drop h.length) else findHeader hs l

/-- The alternatives of the fallback answer pattern, lowercased. -/
def ansHeaders : List (List Char) := ["final answer".data, "answer".data, "conclusion".data]

/-- Whether the answer-pattern terminator can match right after a newline:
the alternation "ws then end" or "ws then a char other than capital or
lowercase r", with its internal greedy-with-backtracking whitespace.  At
the end of input the first alternative matches; if the next character is
whitespace the second alternative matches with an empty whitespace run
(whitespace is never the letter r); otherwise the next character must not
be that letter (the character class is case-insensitive). -/
def ansTermOK : List Char → Bool
  | [] => true
  | c :: _ => isPySpace c || (c ≠ 'R' && c ≠ 'r')

/-- The lazy capture of the fallback answer pattern: grow the captured text
until the earliest newline at which the terminator matches; fail if there
is none (`re.DOTALL` lets the capture span newlines). -/
def ansCapture : List Char → Option (List Char)
  | [] => none
  | c :: rest =>
    if c = '\n' && ansTermOK rest then some []
    else (ansCapture rest).map (fun g => c :: g)

/-- The optional-newline step of the fallback answer pattern: greedy, so the
branch that consumes a newline is tried first. -/
def ansNlCap (r : List Char) : Option (List Char) :=
  match r with
  | '\n' :: rest =>
    match ansCapture rest with
    | some g => some g
    | none => ansCapture r
  | _ => ansCapture r

/-- The optional-whitespace step of the fallback answer pattern: greedy with
backtracking, so longer whitespace consumption is tried first. -/
def ansBody : List Char → Option (List Char)
  | [] => ansNlCap []
  | c :: rest =>
    if isPySpace c then
      match ansBody rest with
      | some g => some g
      | none => ansNlCap (c :: rest)
    else ansNlCap (c :: rest)

/-- The optional-colon step of the fallback answer pattern: greedy, so the
branch that consumes a colon is tried first. -/
def ansAfterHeader (r : List Char) : Option (List Char) :=
  match r with
  | ':' :: r1 =>
    match ansBody r1 with
    | some g => some g
    | none => ansBody (':' :: r1)
  | _ => ansBody r

/-- Python `re.search` for the fallback answer pattern of
`ResponseService._parse_llm_output`: scan left to right for the leftmost
position where the whole pattern matches and return capture group 1. -/
def findAnswerMatch : List Char → Option (List Char)
  | [] => none
  | c :: cs =>
    match findHeader ansHeaders (c :: cs) with
    | some r =>
      match ansAfterHeader r with
      | some g => some g
      | none => findAnswerMatch cs
    | none => findAnswerMatch cs

/-- The alternatives of the fallback reasoning pattern, lowercased. -/
def reaHeaders : List (List Char) := ["reasoning".data, "analysis".data]

/-- Whether the lookahead terminating the fallback reasoning capture matches
at this position: one of the answer headers followed by a colon
(case-insensitively), or a newline followed by whitespace to the end. -/
def lookaheadOK (r : List Char) : Bool :=
  ciIsPre "final answer:".data r || ciIsPre "answer:".data r ||
    ciIsPre "conclusion:".data r ||
    (match r with
     | '\n' :: rest => rest.all isPySpace
     | _ => false)

/-- The lazy capture of the fallback reasoning pattern: grow until the
earliest position where the lookahead matches; fail if there is none (the
lookahead cannot match at the end of input). -/
def reaCapture : List Char → Option (List Char)
  | [] => none
  | c :: rest =>
    if lookaheadOK (c :: rest) then some []
    else (reaCapture rest).map (fun g => c :: g)

/-- Optional-newline step of the fallback reasoning pattern (greedy). -/
def reaNlCap (r : List Char) : Option (List Char) :=
  match r with
  | '\n' :: rest =>
    match reaCapture rest with
    | some g => some g
    | none => reaCapture r
  | _ => reaCapture r

/-- Optional-whitespace step of the fallback reasoning pattern (greedy with
backtracking). -/
def reaBody : List Char → Option (List Char)
  | [] => reaNlCap []
  | c :: rest =>
    if isPySpace c then
      match reaBody rest with
      | some g => some g
      | none => reaNlCap (c :: rest)
    else reaNlCap (c :: rest)

/-- Optional-colon step of the fallback reasoning pattern (greedy). -/
def reaAfterHeader (r : List Char) : Option (List Char) :=
  match r with
  | ':' :: r1 =>
    match reaBody r1 with
    | some g => some g
    | none => reaBody (':' :: r1)
  | _ => reaBody r

/-- Python `re.search` for the fallback reasoning pattern. -/
def findReasoningMatch : List Char → Option (List Char)
  | [] => none
  | c :: cs =>
    match findHeader reaHeaders (c :: cs) with
    | some r =>
      match reaAfterHeader r with
      | some g => some g
      | none => findReasoningMatch cs
    | none => findReasoningMatch cs

/-- The fixed sentinel answer of the fallback parse. -/
def noAnswerSentinel : String :=
  "No conclusive answer could be extracted from the LLM output due to formatting issues."

/-- The label stripped from the front of the primary-parse reasoning. -/
def reasoningLabel : List Char := "Reasoning:".data

/-- `ResponseService._parse_llm_output` after newline normalization and
stripping: primary split on the Final-Answer header line, else the
two-regex fallback, before markdown cleaning. -/
def parseCore (l : List Char) : List Char × List Char :=
  match splitFA l with
  | some (a, b) =>
    let r0 := pyStripL a
    let r1 := if reasoningLabel.isPrefixOf r0 then pyStripL (r0.drop reasoningLabel.length) else r0
    (r1, pyStripL b)
  | none =>
    let r :=
      match findReasoningMatch l with
      | some g => pyStripL g
      | none => pyStripL l
    let f :=
      match findAnswerMatch l with
      | some g => pyStripL g
      | none => noAnswerSentinel.data
    (r, f)

/-- `ResponseService._parse_llm_output`: returns (reasoning, final_answer). -/
def parseLlmOutput (s : String) : String × String :=
  let t := pyStripL (normCRLF s.data)
  let p := parseCore t
  (String.mk (pyStripL (removeStarsL p.1)), String.mk (pyStripL (removeStarsL p.2)))

/-- The metadata fields of a retrieved passage that the verified components
read.  The Python metadata is an open string-keyed dictionary (possibly
`None`); a missing key is read with default the empty string, and a missing
rerank score with Python default `0`, so absent fields are modelled by the
same defaults.  The cross-encoder rerank score is a Python float; only its
linear order is used, so it is modelled by `Int`. -/
structure Metadata where
  case_title : String := ""
  media_neutral_citation : String := ""
  chunk_sequence : String := ""
  rerank_score : Option Int := none
deriving DecidableEq, Repr

/-- The `Document` dataclass of the retrieval component. -/
structure Document where
  content : String
  metadata : Metadata := {}
  score : Option Int := none
deriving DecidableEq, Repr

/-- Python `needle in haystack` on strings. -/
def strContains (haystack needle : String) : Bool :=
  decide (needle.data <:+: haystack.data)

/-- The citation string formatted for one passage. -/
def citeString (d : Document) : String :=
  d.metadata.case_title ++ " " ++ d.metadata.media_neutral_citation

/-- The first loop of `ResponseService._extract_citations`: walk the
documents accumulating `(citations, seen_citations)`; a document
contributes only when its case title and citation identifier are nonempty,
the identifier is unseen, and the citation or the bare case title occurs
in the raw LLM output. -/
def citeFirstPass (llm_output : String) :
    List Document → List String × List String → List String × List String
  | [], st => st
  | d :: ds, (cits, seen) =>
    let ct := d.metadata.case_title
    let mn := d.metadata.media_neutral_citation
    if ct ≠ "" && mn ≠ "" && !seen.contains mn then
      let c := ct ++ " " ++ mn
      if strContains llm_output c || strContains llm_output ct then
        citeFirstPass llm_output ds (cits ++ [c], seen ++ [mn])
      else citeFirstPass llm_output ds (cits, seen)
    else citeFirstPass llm_output ds (cits, seen)

/-- The fallback loop of `ResponseService._extract_citations`: include every
document with nonempty title and unseen nonempty identifier. -/
def citeFallback :
    List Document → List String × List String → List String × List String
  | [], st => st
  | d :: ds, (cits, seen) =>
    let ct := d.metadata.case_title
    let mn := d.metadata.media_neutral_citation
    if ct ≠ "" && mn ≠ "" && !seen.contains mn then
      citeFallback ds (cits ++ [ct ++ " " ++ mn], seen ++ [mn])
    else citeFallback ds (cits, seen)

/-- `ResponseService._extract_citations`. -/
def extractCitations (documents : List Document) (llm_output : String) : List String :=
  let st := citeFirstPass llm_output documents ([], [])
  if st.1 = [] then (citeFallback documents st).1 else st.1

/-- Configuration of the response formatter. -/
structure ResponseConfig where
  max_citations : Nat
deriving DecidableEq, Repr

/-- The formatted response dictionary returned to the caller. -/
structure FormattedResponse where
  query : String
  final_answer : String
  citations : List String
deriving DecidableEq, Repr

/-- `ResponseService.generate_response` (one attempt, before the retry
decorator): validates the inputs, parses the LLM output and extracts the
citation list truncated to the configured maximum. -/
def generateResponse (cfg : ResponseConfig) (query llm_output : String)
    (documents : List Document) : Except PyError FormattedResponse :=
  if query = "" then .error (.valueError "Query must be a non-empty string.")
  else if llm_output = "" then .error (.valueError "LLM output must be a non-empty string.")
  else if documents = [] then
    .error (.valueError "Documents must be a non-empty list of Document objects.")
  else
    let p := parseLlmOutput llm_output
    let citations := extractCitations documents llm_output
    .ok { query := query, final_answer := p.2, citations := citations.take cfg.max_citations }

/-- Modelled from the spec of citation extraction, for the refinement proof
of the citation contract: "include only citations whose case title or
combined string literally appears as a substring of the raw LLM output ...
no duplicate citation identifiers", selecting the contributing documents
in passage order while skipping already-seen identifiers. -/
def specSelect (p : Document → Bool) : List Document → List String → List Document
  | [], _ => []
  | d :: ds, seen =>
    let ct := d.metadata.case_title
    let mn := d.metadata.media_neutral_citation
    if ct ≠ "" && mn ≠ "" && !seen.contains mn && p d then
      d :: specSelect p ds (seen ++ [mn])
    else specSelect p ds seen

/-- Modelled from the spec: the predicate of the first pass — the model
actually referenced the citation in its raw output. -/
def specMentioned (llm_output : String) (d : Document) : Bool :=
  strContains llm_output (citeString d) || strContains llm_output d.metadata.case_title

/-- Modelled from the spec: the documents whose citations are emitted — the
referenced ones, or every citable passage when the first pass is empty. -/
def specSelectedDocs (llm_output : String) (documents : List Document) : List Document :=
  let m := specSelect (specMentioned llm_output) documents []
  if m = [] then specSelect (fun _ => true) documents [] else m

/-- Modelled from the spec: the final citation list — the selected
documents' citation strings in passage order, truncated to the configured
maximum citation count. -/
def specCitations (cfg : ResponseConfig) (llm_output : String)
    (documents : List Document) : List String :=
  ((specSelectedDocs llm_output documents).map citeString).take cfg.max_citations

/-- Configuration of the reranker. -/
structure RerankerConfig where
  model_name : String
  top_n : Nat
deriving DecidableEq, Repr

/-- The sort key of the reranker: `metadata.get` of the rerank score with
Python default `0`. -/
def rerankKey (d : Document) : Int :=
  d.metadata.rerank_score.getD 0

/-- A document with the cross-encoder score written into its metadata
(`doc.metadata` is replaced by a dictionary holding the score, as the
Python loop does in place). -/
def withScore (d : Document) (s : Int) : Document :=
  { d with metadata := { d.metadata with rerank_score := some s } }

/-- The scored document list: Python `zip(documents, scores)` (truncating at
the shorter list) with the score attached to each document. -/
def scoredList (documents : List Document) (scores : List Int) : List Document :=
  (documents.zip scores).map (fun p => withScore p.1 p.2)

/-- Stable insertion of a document into a descending-sorted list: the new
document, which stands earlier in the original order, is placed before any
document of equal key.  -/
def insertDesc (d : Document) : List Document → List Document
  | [] => [d]
  | y :: ys => if rerankKey d < rerankKey y then y :: insertDesc d ys else d :: y :: ys

/-- Python `sorted(..., key=rerank_score, reverse=True)`: the unique stable
descending sort by rerank score, here realized as insertion sort.
(CPython's sort is stable, and with `reverse=True` equal keys keep their
original relative order; a stable descending sort is unique, so any stable
implementation is an exact model.) -/
def sortDesc : List Document → List Document
  | [] => []
  | d :: ds => insertDesc d (sortDesc ds)

/-- `RerankerService.rerank` (one attempt, before the retry decorator).
The cross-encoder inference `self.model.predict(pairs)` is an oracle
`predictO` from the query and document list to the score list (or an
exception); any exception in the scoring block is wrapped in a
`RuntimeError` naming reranking.  An empty document list short-circuits to
an empty result before the model is consulted. -/
def rerank (cfg : RerankerConfig) (predictO : String → List Document → Except PyError (List Int))
    (query : String) (documents : List Document) : Except PyError (List Document) :=
  if query = "" then .error (.valueError "Query must be a non-empty string.")
  else if documents = [] then .ok []
  else
    match predictO query documents with
    | .error e => .error (.runtimeError ("Reranking failed: " ++ e.msg))
    | .ok scores => .ok ((sortDesc (scoredList documents scores)).take cfg.top_n)

/-- A provider registry entry `{provider, model_name}`. -/
structure Provider where
  provider : String
  model_name : String
deriving DecidableEq, Repr

/-- The outcome of one provider network attempt: the call raised, or it
returned a response text (possibly empty). -/
inductive CallResult where
  | err
  | resp (s : String)
deriving DecidableEq, Repr

/-- Whether a response carries the mandated header (Python
`"Final Answer:" in response`). -/
def hasFinalAnswer (s : String) : Bool := strContains s "Final Answer:"

/-- The provider traversal of `LLMService.generate`: try each candidate in
order with the built prompts; an attempt that raises or returns an empty
response is skipped; a response containing the Final-Answer header is
returned at once; otherwise the first such response is remembered as
`best_response` and returned only after the loop, when no candidate
produced a header. `none` means every candidate failed. -/
def tryProviders (call : Provider → String → String → CallResult)
    (sys usr : String) : List Provider → Option String → Option String
  | [], best => best
  | p :: ps, best =>
    match call p sys usr with
    | .err => tryProviders call sys usr ps best
    | .resp s =>
      if s = "" then tryProviders call sys usr ps best
      else if hasFinalAnswer s then some s
      else
        tryProviders call sys usr ps
          (match best with
           | none => some s
           | some b => some b)

/-- The nonempty responses produced along a traversal, in attempt order;
used to characterize `tryProviders`. -/
def responsesOf (call : Provider → String → String → CallResult)
    (sys usr : String) : List Provider → List String
  | [] => []
  | p :: ps =>
    match call p sys usr with
    | .err => responsesOf call sys usr ps
    | .resp s => if s = "" then responsesOf call sys usr ps else s :: responsesOf call sys usr ps

/-- The per-document context block of the LLM prompt. -/
def contextBlock (i : Nat) (d : Document) : String :=
  "Document " ++ toString (i + 1) ++ " (Score: " ++
    (match d.metadata.rerank_score with
     | some n => toString n
     | none => "N/A") ++ "):\n" ++ d.content

/-- The context assembled from the reranked documents. -/
def formatContext (documents : List Document) : String :=
  String.intercalate "\n\n" (documents.enum.map (fun p => contextBlock p.1 p.2))

/-- The system prompt built by `LLMService.generate`. -/
def systemPromptOf (documents : List Document) : String :=
  "You are a helpful assistant. Use the provided context to answer the query accurately and concisely." ++
    "\n\nContext:\n" ++ formatContext documents

/-- The user prompt built by `LLMService.generate`. -/
def userPromptOf (query : String) : String := "Query: " ++ query

/-- `LLMService.generate` (one attempt, before the retry decorator).  The
per-provider network calls are the oracle `call` (taking the provider
entry and the two prompts); `random.shuffle` is the oracle `shuffle`
applied to the matching candidates.  Validation errors are `ValueError`;
exhausting every candidate is the terminal `RuntimeError`. -/
def generate (providers : List Provider) (shuffle : List Provider → List Provider)
    (call : Provider → String → String → CallResult)
    (query : String) (documents : List Document) (model_id : String)
    (max_tokens : Int) : Except PyError String :=
  if query = "" then .error (.valueError "Query must be a non-empty string.")
  else if model_id = "" then .error (.valueError "Model_id must be a non-empty string.")
  else if max_tokens ≤ 0 then .error (.valueError "max_tokens must be a positive integer.")
  else if !(providers.any (fun p => p.model_name == model_id)) then
    .error (.valueError ("No provider configured for model_id " ++ sq ++ model_id ++ sq ++ "."))
  else
    let system_prompt := systemPromptOf documents
    let user_prompt := userPromptOf query
    let candidates := providers.filter (fun p => p.model_name == model_id)
    if candidates = [] then
      .error (.valueError ("No provider found for model_id " ++ sq ++ model_id ++ sq ++ "."))
    else
      match tryProviders call system_prompt user_prompt (shuffle candidates) none with
      | some s => .ok s
      | none => .error (.runtimeError "All LLM providers failed. Check API keys and configurations.")

/-- The `tenacity` retry decorator `stop_after_attempt` semantics on a
deterministic-per-attempt operation: `retryFrom op k r` performs attempt
`k` with `r` further attempts allowed, returning the total number of
attempts performed and the final outcome (an exception on the last allowed
attempt is surfaced).  The decorators in this codebase allow 3 attempts,
i.e. `retryFrom op 0 2`. -/
def retryFrom (op : Nat → Except PyError α) : Nat → Nat → Nat × Except PyError α
  | k, 0 => (k + 1, op k)
  | k, r + 1 =>
    match op k with
    | .ok a => (k + 1, .ok a)
    | .error _ => retryFrom op (k + 1) r

/-- One context block of the Chain-of-Thought prompt template, with the
Python `dict.get` defaults (a missing metadata key is modelled by the
empty string). -/
def cotContextOne (d : Document) : String :=
  let ct := if d.metadata.case_title = "" then "Unknown Case" else d.metadata.case_title
  let mn := if d.metadata.media_neutral_citation = "" then "No Citation" else d.metadata.media_neutral_citation
  let ck := if d.metadata.chunk_sequence = "" then "N/A" else d.metadata.chunk_sequence
  "\n\n--- Start of Context from Case: " ++ ct ++ " " ++ mn ++ " ---\n" ++
    "\n[Chunk " ++ ck ++ "]\n" ++ d.content ++ "\n" ++
    "--- End of Context from Case: " ++ ct ++ " " ++ mn ++ " ---\n"

/-- `CoTPromptTemplate._format_context_string`. -/
def cotContextString (documents : List Document) : String :=
  String.mk (pyStripL (String.join (documents.map cotContextOne)).data)

/-- The fixed instructional text of the Chain-of-Thought template before the
interpolated context.  The long legal-instruction prose is abbreviated
here, since none of the verified properties depends on its wording — only
on the interpolation structure and on the prompt being nonempty. -/
def cotTemplateHead : String :=
  "\nYou are a legal expert answering a query based on court case context. " ++
    "(instructional text abbreviated)\n\n---\n**CONTEXT:**\n"

/-- `CoTPromptTemplate.format`: substitute the serialized context and the
raw query into the fixed template. -/
def cotFormat (query : String) (documents : List Document) : String :=
  cotTemplateHead ++ cotContextString documents ++
    "\n---\n**USER QUERY:**\n" ++ query ++ "\n---\n"

/-- The oracles and configuration a pipeline run reads: the provider
registry and shuffle, the provider network calls, the embedding service,
the vector-index query, the cross-encoder inference, and the validated
configuration values.  The service-call oracles take the attempt number so
transient failures can be modelled. -/
structure RagEnv where
  providers : List Provider
  shuffleO : List Provider → List Provider
  callO : Provider → String → String → CallResult
  embedO : Nat → Except PyError (List Int)
  retrieveO : List Int → Nat → Except PyError (List Document)
  predictO : String → List Document → Except PyError (List Int)
  rerankCfg : RerankerConfig
  respCfg : ResponseConfig
  model_id : String
  max_tokens : Int

/-- `EmbeddingRetrievalPipeline.run_embedding` (one attempt): validate the
query, call the embedding service, wrap any service failure naming the
stage. -/
def runEmbedding (env : RagEnv) (query : String) (k : Nat) : Except PyError (List Int) :=
  if query = "" then .error (.valueError "Query must be a non-empty string.")
  else
    match env.embedO k with
    | .ok v => .ok v
    | .error e => .error (.runtimeError ("Embedding failed: " ++ e.msg))

/-- `EmbeddingRetrievalPipeline.run_retrieval` (one attempt). -/
def runRetrieval (env : RagEnv) (emb : List Int) (k : Nat) : Except PyError (List Document) :=
  match env.retrieveO emb k with
  | .ok docs => .ok docs
  | .error e => .error (.runtimeError ("Retrieval failed: " ++ e.msg))

/-- `EmbeddingRetrievalPipeline.run_reranking` (one attempt): the reranker
carries its own 3-attempt retry decorator, so the inner retried call is
embedded here, and its failure is wrapped (again) naming the stage. -/
def runReranking (env : RagEnv) (query : String) (documents : List Document)
    (_k : Nat) : Except PyError (List Document) :=
  match (retryFrom (fun _ => rerank env.rerankCfg env.predictO query documents) 0 2).2 with
  | .ok r => .ok r
  | .error e => .error (.runtimeError ("Reranking failed: " ++ e.msg))

/-- `EmbeddingRetrievalPipeline.run_generation` (one attempt): format the
Chain-of-Thought prompt, call the router (which carries its own 3-attempt
retry decorator) with the prompt as the query text, wrap failures naming
the stage. -/
def runGeneration (env : RagEnv) (query : String) (documents : List Document)
    (_k : Nat) : Except PyError String :=
  let prompt := cotFormat query documents
  match (retryFrom (fun _ =>
      generate env.providers env.shuffleO env.callO prompt documents
        env.model_id env.max_tokens) 0 2).2 with
  | .ok r => .ok r
  | .error e => .error (.runtimeError ("Generation failed: " ++ e.msg))

/-- `EmbeddingRetrievalPipeline.run_response_formatting` (one attempt): the
formatter carries its own 3-attempt retry decorator. -/
def runFormatting (env : RagEnv) (query llm_output : String)
    (documents : List Document) (_k : Nat) : Except PyError FormattedResponse :=
  match (retryFrom (fun _ => generateResponse env.respCfg query llm_output documents) 0 2).2 with
  | .ok r => .ok r
  | .error e => .error (.runtimeError ("Response formatting failed: " ++ e.msg))

/-- The JSON-serializable pipeline result. -/
structure PipelineResult where
  query : String
  embedding : List Int
  documents : List Document
  final_answer : String
  citations : List String
deriving DecidableEq, Repr

/-- `EmbeddingRetrievalPipeline.run`: the five sequential stages, each under
the 3-attempt fixed-delay retry policy, with any stage failure wrapped as
the terminal pipeline failure; on success the structured result is
assembled from the stage outputs. -/
def runPipeline (env : RagEnv) (query : String) : Except PyError PipelineResult :=
  match (retryFrom (runEmbedding env query) 0 2).2 with
  | .error e => .error (.runtimeError ("Pipeline failed: " ++ e.msg))
  | .ok emb =>
    match (retryFrom (runRetrieval env emb) 0 2).2 with
    | .error e => .error (.runtimeError ("Pipeline failed: " ++ e.msg))
    | .ok docs =>
      match (retryFrom (runReranking env query docs) 0 2).2 with
      | .error e => .error (.runtimeError ("Pipeline failed: " ++ e.msg))
      | .ok rdocs =>
        match (retryFrom (runGeneration env query rdocs) 0 2).2 with
        | .error e => .error (.runtimeError ("Pipeline failed: " ++ e.msg))
        | .ok out =>
          match (retryFrom (runFormatting env query out rdocs) 0 2).2 with
          | .error e => .error (.runtimeError ("Pipeline failed: " ++ e.msg))
          | .ok resp =>
            .ok { query := resp.query, embedding := emb, documents := rdocs,
                  final_answer := resp.final_answer, citations := resp.citations }

/-! ## Shared helper lemmas -/

/-- A retried operation that fails identically on every attempt performs
every allowed attempt and surfaces that failure. -/
theorem retryFrom_const_error {α} (op : Nat → Except PyError α) (e : PyError)
    (h : ∀ k, op k = .error e) : ∀ r k, retryFrom op k r = (k + r + 1, .error e)
  | 0, k => by simp [retryFrom, h k]
  | r + 1, k => by
    have ih := retryFrom_const_error op e h r (k + 1)
    simp [retryFrom, h k, ih]
    omega

/-- A retried operation that succeeds at its first attempt performs exactly
one attempt. -/
theorem retryFrom_first_ok {α} (op : Nat → Except PyError α) (a : α) (k : Nat)
    (h : op k = .ok a) : ∀ r, retryFrom op k r = (k + 1, .ok a)
  | 0 => by simp [retryFrom, h]
  | r + 1 => by simp [retryFrom, h]

/-! ## C9: rerank on an empty passage list -/

/-- C9: for every non-empty query, `rerank` applied to an empty passage list
returns an empty list and is not an error; the result is independent of
the scoring oracle `predictO` — quantified over every possible scoring
model — so the cross-encoder is never invoked. -/
theorem rerank_empty_passes_through (cfg : RerankerConfig)
    (predictO : String → List Document → Except PyError (List Int))
    (query : String) (hq : query ≠ "") :
    rerank cfg predictO query [] = .ok [] := by
  simp [rerank, hq]

/-- Witness for C9 at a concrete configuration, query, and a scoring oracle
that would fail if it were ever consulted. -/
theorem rerank_empty_passes_through_witness :
    rerank ⟨"cross-encoder", 3⟩ (fun _ _ => .error (.runtimeError "model offline")) "q" [] =
      .ok [] :=
  rerank_empty_passes_through ⟨"cross-encoder", 3⟩
    (fun _ _ => .error (.runtimeError "model offline")) "q" (by decide)

/-! ## C8: generate with no matching provider -/

/-- Helper: the no-matching-provider failure of `generate`, shared between
the C8 theorem and the C7 retry analysis. -/
theorem generate_no_provider_aux (providers : List Provider)
    (shuffle : List Provider → List Provider)
    (call : Provider → String → String → CallResult)
    (query : String) (documents : List Document) (model_id : String) (max_tokens : Int)
    (hq : query ≠ "") (hm : model_id ≠ "") (hmt : 0 < max_tokens)
    (hnone : ∀ p ∈ providers, p.model_name ≠ model_id) :
    generate providers shuffle call query documents model_id max_tokens =
      .error (.valueError
        ("No provider configured for model_id " ++ sq ++ model_id ++ sq ++ ".")) := by
  have hany : providers.any (fun p => p.model_name == model_id) = false := by
    simp only [List.any_eq_false]
    intro p hp
    simpa using hnone p hp
  have hmt2 : ¬ max_tokens ≤ 0 := by omega
  simp [generate, hq, hm, hmt2, hany]

/-- C8: when no registered entry's model name equals the requested model id
(and the other argument validations pass), `generate` fails with the
`ValueError`-class no-provider condition.  The network-call oracle `call`
and the shuffle oracle are universally quantified and do not occur in the
result, so no provider network call is attempted. -/
theorem generate_no_matching_provider (providers : List Provider)
    (shuffle : List Provider → List Provider)
    (call : Provider → String → String → CallResult)
    (query : String) (documents : List Document) (model_id : String) (max_tokens : Int)
    (hq : query ≠ "") (hm : model_id ≠ "") (hmt : 0 < max_tokens)
    (hnone : ∀ p ∈ providers, p.model_name ≠ model_id) :
    generate providers shuffle call query documents model_id max_tokens =
      .error (.valueError
        ("No provider configured for model_id " ++ sq ++ model_id ++ sq ++ ".")) :=
  generate_no_provider_aux providers shuffle call query documents model_id max_tokens
    hq hm hmt hnone

/-- Witness for C8 at a concrete registry holding one provider for a
different model. -/
theorem generate_no_matching_provider_witness :
    generate [⟨"groq", "other-model"⟩] id (fun _ _ _ => .err) "q" [] "target-model" 100 =
      .error (.valueError
        ("No provider configured for model_id " ++ sq ++ "target-model" ++ sq ++ ".")) :=
  generate_no_matching_provider [⟨"groq", "other-model"⟩] id (fun _ _ _ => .err)
    "q" [] "target-model" 100 (by decide) (by decide) (by decide) (by decide)

/-! ## C1: fallback to the second provider -/

/-- C1: with two candidate providers for the requested model id tried in
shuffle order, the first raising an error and the second returning a
non-empty response, `generate` succeeds with the second response: a raising
attempt is a soft failure and the router moves on.  (The second response is
returned whether or not it carries the Final-Answer header: with the header
it is returned at once, without it it is remembered as the best response
and returned after the traversal.) -/
theorem generate_second_provider_rescues (providers : List Provider)
    (shuffle : List Provider → List Provider)
    (call : Provider → String → String → CallResult)
    (query : String) (documents : List Document) (model_id : String) (max_tokens : Int)
    (p1 p2 : Provider) (s : String)
    (hq : query ≠ "") (hm : model_id ≠ "") (hmt : 0 < max_tokens)
    (hfil : providers.filter (fun p => p.model_name == model_id) ≠ [])
    (hsh : shuffle (providers.filter (fun p => p.model_name == model_id)) = [p1, p2])
    (h1 : call p1 (systemPromptOf documents) (userPromptOf query) = .err)
    (h2 : call p2 (systemPromptOf documents) (userPromptOf query) = .resp s)
    (hs : s ≠ "") :
    generate providers shuffle call query documents model_id max_tokens = .ok s := by
  have hany : providers.any (fun p => p.model_name == model_id) = true := by
    rcases List.exists_mem_of_ne_nil _ hfil with ⟨p, hp⟩
    rw [List.mem_filter] at hp
    exact List.any_eq_true.mpr ⟨p, hp.1, hp.2⟩
  have hmt2 : ¬ max_tokens ≤ 0 := by omega
  simp only [generate, if_neg hq, if_neg hm, if_neg hmt2, hany, Bool.not_true,
    Bool.false_eq_true, if_false, if_neg hfil, hsh]
  rw [tryProviders, h1, tryProviders, h2]
  by_cases hfa : hasFinalAnswer s
  · simp [hs, hfa]
  · simp [hs, hfa, tryProviders]

/-- Witness for C1: two registered providers for the same model, the first
attempt raising, the second returning a well-formed response. -/
theorem generate_second_provider_rescues_witness :
    generate [⟨"groq", "m"⟩, ⟨"openai", "m"⟩] id
      (fun p _ _ => if p.provider = "groq" then .err else .resp "Final Answer:\nyes")
      "q" [] "m" 100 = .ok "Final Answer:\nyes" :=
  generate_second_provider_rescues [⟨"groq", "m"⟩, ⟨"openai", "m"⟩] id
    (fun p _ _ => if p.provider = "groq" then .err else .resp "Final Answer:\nyes")
    "q" [] "m" 100 ⟨"groq", "m"⟩ ⟨"openai", "m"⟩ "Final Answer:\nyes"
    (by decide) (by decide) (by decide) (by decide) (by decide) (by decide)
    (by decide) (by decide)

/-! ## C10: the traversal returns a header-bearing response immediately,
else the first non-empty response after exhausting the candidates -/

/-- C10: characterization of the provider traversal.  Writing `responsesOf`
for the non-empty responses along the traversal in attempt order, the
traversal returns the first response containing the Final-Answer header if
any candidate produces one (an immediate return), and otherwise — only
after every candidate has been tried — the remembered best response (the
first non-empty response, when the entry accumulator is empty).  In
particular a non-empty response lacking the header is not returned at the
point it is produced: any later header-bearing response supersedes it. -/
theorem tryProviders_first_header_else_first_response
    (call : Provider → String → String → CallResult) (sys usr : String)
    (ps : List Provider) (best : Option String) :
    tryProviders call sys usr ps best =
      match (responsesOf call sys usr ps).find? hasFinalAnswer with
      | some s => some s
      | none =>
        match best with
        | some b => some b
        | none => (responsesOf call sys usr ps).head? := by
  induction ps generalizing best with
  | nil => cases best <;> simp [tryProviders, responsesOf]
  | cons p ps ih =>
    rw [tryProviders, responsesOf]
    cases hc : call p sys usr with
    | err => exact ih best
    | resp s =>
      by_cases hs : s = ""
      · simp only [hs, if_pos rfl]
        exact ih best
      · simp only [if_neg hs]
        by_cases hfa : hasFinalAnswer s
        · simp [hfa, List.find?]
        · simp only [hfa, List.find?_cons_of_neg _ hfa, List.head?_cons]
          cases best with
          | none =>
            rw [ih (some s)]
            cases List.find? hasFinalAnswer (responsesOf call sys usr ps) <;> simp
          | some b =>
            rw [ih (some b)]
            cases List.find? hasFinalAnswer (responsesOf call sys usr ps) <;> simp

/-! ## C7: invalid-input conditions and the retry decorators

The retry decorators on `rerank`, `generate` and `generate_response` carry
no exception filter, so they retry on every exception class, including the
`ValueError` raised by the input validations: an invalid input is
re-attempted the full three times before its failure is surfaced. -/

/-- C7 counterexample: the retried `rerank` call with a blank query performs
all three attempts of its retry policy rather than surfacing the
invalid-input failure immediately after one attempt. -/
theorem invalid_input_is_retried_counterexample :
    (retryFrom (fun _ => rerank ⟨"cross-encoder", 3⟩ (fun _ _ => .ok [1]) ""
      [{ content := "text" }]) 0 2).1 = 3 ∧
    ¬ (retryFrom (fun _ => rerank ⟨"cross-encoder", 3⟩ (fun _ _ => .ok [1]) ""
      [{ content := "text" }]) 0 2).1 = 1 := by
  constructor <;> decide

/-- C7 amended: an invalid input (blank query, empty LLM output or passage
list, non-positive max_tokens, unknown model id) makes each attempt fail
with the same `ValueError`, the surrounding retry policy re-attempts it the
full three times, and the unchanged `ValueError` is then surfaced — the
failure is deterministic across retries but not immediate. -/
theorem invalid_input_retried_then_surfaced
    (rcfg : RerankerConfig)
    (predictO : String → List Document → Except PyError (List Int))
    (ccfg : ResponseConfig) (providers : List Provider)
    (shuffle : List Provider → List Provider)
    (call : Provider → String → String → CallResult)
    (q out mid : String) (docs : List Document) (mt : Int) :
    (retryFrom (fun _ => rerank rcfg predictO "" docs) 0 2 =
      (3, .error (.valueError "Query must be a non-empty string."))) ∧
    (q ≠ "" → retryFrom (fun _ => generateResponse ccfg q "" docs) 0 2 =
      (3, .error (.valueError "LLM output must be a non-empty string."))) ∧
    (q ≠ "" → out ≠ "" → retryFrom (fun _ => generateResponse ccfg q out []) 0 2 =
      (3, .error (.valueError "Documents must be a non-empty list of Document objects."))) ∧
    (retryFrom (fun _ => generate providers shuffle call "" docs mid mt) 0 2 =
      (3, .error (.valueError "Query must be a non-empty string."))) ∧
    (q ≠ "" → mid ≠ "" → mt ≤ 0 →
      retryFrom (fun _ => generate providers shuffle call q docs mid mt) 0 2 =
      (3, .error (.valueError "max_tokens must be a positive integer."))) ∧
    (q ≠ "" → mid ≠ "" → 0 < mt → (∀ p ∈ providers, p.model_name ≠ mid) →
      retryFrom (fun _ => generate providers shuffle call q docs mid mt) 0 2 =
      (3, .error (.valueError
        ("No provider configured for model_id " ++ sq ++ mid ++ sq ++ ".")))) := by
  refine ⟨?_, ?_, ?_, ?_, ?_, ?_⟩
  · exact retryFrom_const_error _ _ (fun _ => by simp [rerank]) 2 0
  · intro hq
    exact retryFrom_const_error _ _ (fun _ => by simp [generateResponse, hq]) 2 0
  · intro hq hout
    exact retryFrom_const_error _ _ (fun _ => by simp [generateResponse, hq, hout]) 2 0
  · exact retryFrom_const_error _ _ (fun _ => by simp [generate]) 2 0
  · intro hq hmid hmt
    exact retryFrom_const_error _ _ (fun _ => by simp [generate, hq, hmid, hmt]) 2 0
  · intro hq hmid hmt hnone
    exact retryFrom_const_error _ _
      (fun _ => generate_no_provider_aux providers shuffle call q docs mid mt
        hq hmid hmt hnone) 2 0

/-- Witness for C7 (amended) at concrete inputs: the blank-query rerank and
the non-positive max_tokens generation both surface their `ValueError`
after exactly three attempts. -/
theorem invalid_input_retried_then_surfaced_witness :
    (retryFrom (fun _ => rerank ⟨"ce", 2⟩ (fun _ _ => .ok []) "" []) 0 2 =
      (3, .error (.valueError "Query must be a non-empty string."))) ∧
    (retryFrom (fun _ => generate [] id (fun _ _ _ => .err) "q" [] "m" 0) 0 2 =
      (3, .error (.valueError "max_tokens must be a positive integer."))) :=
  ⟨(invalid_input_retried_then_surfaced ⟨"ce", 2⟩ (fun _ _ => .ok []) ⟨5⟩ [] id
      (fun _ _ _ => .err) "q" "out" "m" [] 0).1,
    (invalid_input_retried_then_surfaced ⟨"ce", 2⟩ (fun _ _ => .ok []) ⟨5⟩ [] id
      (fun _ _ _ => .err) "q" "out" "m" [] 0).2.2.2.2.1 (by decide) (by decide) (by decide)⟩

/-! ## C5: reranker output is truncated, sorted, stable, and scored -/

/-- Membership in a stable insertion. -/
theorem mem_insertDesc {x d : Document} : ∀ {l : List Document},
    x ∈ insertDesc d l ↔ x = d ∨ x ∈ l
  | [] => by simp [insertDesc]
  | y :: ys => by
    by_cases h : rerankKey d < rerankKey y
    · simp only [insertDesc, if_pos h, List.mem_cons, mem_insertDesc]
      tauto
    · simp only [insertDesc, if_neg h, List.mem_cons]

/-- Stable insertion preserves the descending-key invariant. -/
theorem insertDesc_pairwise {d : Document} : ∀ {l : List Document},
    l.Pairwise (fun a b => rerankKey b ≤ rerankKey a) →
    (insertDesc d l).Pairwise (fun a b => rerankKey b ≤ rerankKey a)
  | [], _ => by simp [insertDesc]
  | y :: ys, h => by
    rcases List.pairwise_cons.mp h with ⟨hy, hys⟩
    by_cases hk : rerankKey d < rerankKey y
    · rw [insertDesc, if_pos hk]
      refine List.pairwise_cons.mpr ⟨?_, insertDesc_pairwise hys⟩
      intro e he
      rcases mem_insertDesc.mp he with rfl | he
      · omega
      · exact hy e he
    · rw [insertDesc, if_neg hk]
      refine List.pairwise_cons.mpr ⟨?_, h⟩
      intro e he
      rcases List.mem_cons.mp he with rfl | he
      · omega
      · have := hy e he
        omega

/-- The stable sort produces a descending-key list. -/
theorem sortDesc_pairwise : ∀ l : List Document,
    (sortDesc l).Pairwise (fun a b => rerankKey b ≤ rerankKey a)
  | [] => by simp [sortDesc]
  | d :: ds => insertDesc_pairwise (sortDesc_pairwise ds)

/-- The sort introduces no new documents. -/
theorem mem_sortDesc {x : Document} : ∀ {l : List Document}, x ∈ sortDesc l → x ∈ l
  | [], h => by simp [sortDesc] at h
  | d :: ds, h => by
    simp only [sortDesc] at h
    rcases mem_insertDesc.mp h with rfl | h2
    · exact List.mem_cons_self _ _
    · exact List.mem_cons_of_mem _ (mem_sortDesc h2)

/-- Stability of the insertion, expressed per key: the sublist of documents
with any fixed rerank key is unchanged except for the inserted document
being put in front when it carries that key. -/
theorem insertDesc_filter_key (d : Document) (s : Int) : ∀ l : List Document,
    (insertDesc d l).filter (fun e => rerankKey e == s) =
      if rerankKey d = s then d :: l.filter (fun e => rerankKey e == s)
      else l.filter (fun e => rerankKey e == s)
  | [] => by
    by_cases h : rerankKey d = s <;> simp [insertDesc, h, beq_iff_eq]
  | y :: ys => by
    by_cases hk : rerankKey d < rerankKey y
    · rw [insertDesc, if_pos hk]
      by_cases hy : rerankKey y = s
      · have hd : ¬ rerankKey d = s := by omega
        simp [List.filter_cons, beq_iff_eq, hy, hd, insertDesc_filter_key d s ys]
      · by_cases hd : rerankKey d = s <;>
          simp [List.filter_cons, beq_iff_eq, hy, hd, insertDesc_filter_key d s ys]
    · rw [insertDesc, if_neg hk]
      by_cases hd : rerankKey d = s <;> simp [List.filter_cons, beq_iff_eq, hd]

/-- Stability of the sort: for every key, the documents carrying that key
appear in the sorted list exactly in their original order. -/
theorem sortDesc_filter_key (s : Int) : ∀ l : List Document,
    (sortDesc l).filter (fun e => rerankKey e == s) =
      l.filter (fun e => rerankKey e == s)
  | [] => rfl
  | d :: ds => by
    rw [sortDesc, insertDesc_filter_key, sortDesc_filter_key s ds]
    by_cases hd : rerankKey d = s <;> simp [List.filter_cons, beq_iff_eq, hd]

/-- C5: a successful `rerank` returns at most the configured top-N
documents, sorted by descending rerank score, with ties stable — for every
score value, the documents carrying it form a prefix (truncation aside,
the exact sequence) of their original retrieval order in the scored list —
and every returned document carries a rerank score in its metadata (the
float value written by the scoring loop, modelled by `Int`). -/
theorem rerank_topn_sorted_stable_scored (cfg : RerankerConfig)
    (predictO : String → List Document → Except PyError (List Int))
    (query : String) (documents : List Document) (out : List Document)
    (hq : query ≠ "")
    (hout : rerank cfg predictO query documents = .ok out) :
    out.length ≤ cfg.top_n ∧
    out.Pairwise (fun a b => rerankKey b ≤ rerankKey a) ∧
    (∀ scores, predictO query documents = .ok scores → ∀ s : Int,
      out.filter (fun e => rerankKey e == s) <+:
        (scoredList documents scores).filter (fun e => rerankKey e == s)) ∧
    (∀ d ∈ out, d.metadata.rerank_score.isSome) := by
  by_cases hd : documents = []
  · rw [rerank, if_neg hq, if_pos hd] at hout
    have : out = [] := by
      cases hout
      rfl
    subst this
    simp
  · rw [rerank, if_neg hq, if_neg hd] at hout
    split at hout
    next e heq => cases hout
    next scores heq =>
      have hout2 : out = (sortDesc (scoredList documents scores)).take cfg.top_n := by
        cases hout
        rfl
      subst hout2
      refine ⟨List.length_take_le _ _, ?_, ?_, ?_⟩
      · exact (sortDesc_pairwise _).sublist (List.take_sublist _ _)
      · intro scores2 hp2 s
        have hs2 : scores2 = scores := by
          rw [heq] at hp2
          cases hp2
          rfl
        subst hs2
        nth_rewrite 2 [← sortDesc_filter_key s]
        exact (List.take_prefix _ _).filter _
      · intro d hdmem
        have h1 : d ∈ sortDesc (scoredList documents scores) :=
          (List.take_sublist _ _).mem hdmem
        have h2 : d ∈ (documents.zip scores).map (fun p => withScore p.1 p.2) :=
          mem_sortDesc h1
        rcases List.mem_map.mp h2 with ⟨p, _, rfl⟩
        simp [withScore]

/-- Witness for C5: three passages scored (1, 5, 1); the output is truncated
to the configured two, sorted descending, and the tied key 1 keeps its
retrieval order, witnessed by the filter-prefix conjunct at key 1. -/
theorem rerank_topn_sorted_stable_scored_witness :
    ([(⟨"b", ⟨"", "", "", some 5⟩, none⟩ : Document),
      ⟨"a", ⟨"", "", "", some 1⟩, none⟩] : List Document).length ≤ 2 ∧
    ([(⟨"b", ⟨"", "", "", some 5⟩, none⟩ : Document),
      ⟨"a", ⟨"", "", "", some 1⟩, none⟩] : List Document).Pairwise
        (fun a b => rerankKey b ≤ rerankKey a) ∧
    ([(⟨"b", ⟨"", "", "", some 5⟩, none⟩ : Document),
      ⟨"a", ⟨"", "", "", some 1⟩, none⟩] : List Document).filter
        (fun e => rerankKey e == 1) <+:
      (scoredList [⟨"a", {}, none⟩, ⟨"b", {}, none⟩, ⟨"c", {}, none⟩] [1, 5, 1]).filter
        (fun e => rerankKey e == 1) := by
  have h := rerank_topn_sorted_stable_scored ⟨"ce", 2⟩ (fun _ _ => .ok [1, 5, 1]) "q"
    [⟨"a", {}, none⟩, ⟨"b", {}, none⟩, ⟨"c", {}, none⟩]
    [⟨"b", ⟨"", "", "", some 5⟩, none⟩, ⟨"a", ⟨"", "", "", some 1⟩, none⟩]
    (by decide) rfl
  exact ⟨h.1, h.2.1, h.2.2.1 [1, 5, 1] rfl 1⟩

/-! ## C4: the citation contract -/

/-- The first citation pass is the spec-side selection: the accumulated
citations and seen identifiers extend by exactly the mentioned, unseen,
fully-labelled documents in passage order. -/
theorem citeFirstPass_eq_spec (out : String) : ∀ (docs : List Document) (cits seen : List String),
    citeFirstPass out docs (cits, seen) =
      (cits ++ (specSelect (specMentioned out) docs seen).map citeString,
       seen ++ (specSelect (specMentioned out) docs seen).map
         (fun d => d.metadata.media_neutral_citation))
  | [], cits, seen => by simp [citeFirstPass, specSelect]
  | d :: ds, cits, seen => by
    by_cases hct : d.metadata.case_title = "" <;>
      by_cases hmn : d.metadata.media_neutral_citation = "" <;>
        by_cases hseen : d.metadata.media_neutral_citation ∈ seen <;>
          by_cases hment :
            (strContains out (d.metadata.case_title ++ " " ++ d.metadata.media_neutral_citation) ||
              strContains out d.metadata.case_title) = true
    all_goals
      simp [citeFirstPass, specSelect, specMentioned, citeString, hct, hmn, hseen, hment,
        citeFirstPass_eq_spec out ds, List.append_assoc]

/-- The fallback citation pass is the spec-side selection with the trivial
predicate. -/
theorem citeFallback_eq_spec : ∀ (docs : List Document) (cits seen : List String),
    citeFallback docs (cits, seen) =
      (cits ++ (specSelect (fun _ => true) docs seen).map citeString,
       seen ++ (specSelect (fun _ => true) docs seen).map
         (fun d => d.metadata.media_neutral_citation))
  | [], cits, seen => by simp [citeFallback, specSelect]
  | d :: ds, cits, seen => by
    by_cases hct : d.metadata.case_title = "" <;>
      by_cases hmn : d.metadata.media_neutral_citation = "" <;>
        by_cases hseen : d.metadata.media_neutral_citation ∈ seen
    all_goals
      simp [citeFallback, specSelect, citeString, hct, hmn, hseen,
        citeFallback_eq_spec ds, List.append_assoc]

/-- The identifiers of the selected documents are duplicate-free and
disjoint from the already-seen identifiers. -/
theorem specSelect_mn_nodup (p : Document → Bool) : ∀ (docs : List Document) (seen : List String),
    ((specSelect p docs seen).map (fun d => d.metadata.media_neutral_citation)).Nodup ∧
    ∀ m ∈ (specSelect p docs seen).map (fun d => d.metadata.media_neutral_citation), m ∉ seen
  | [], seen => by simp [specSelect]
  | d :: ds, seen => by
    rw [specSelect]
    split
    next hcond =>
      have hunseen : d.metadata.media_neutral_citation ∉ seen := by
        intro hmem
        simp [hmem] at hcond
      obtain ⟨ih1, ih2⟩ := specSelect_mn_nodup p ds (seen ++ [d.metadata.media_neutral_citation])
      refine ⟨?_, ?_⟩
      · rw [List.map_cons, List.nodup_cons]
        refine ⟨?_, ih1⟩
        intro hmem
        have := ih2 _ hmem
        simp at this
      · intro m hm
        rw [List.map_cons, List.mem_cons] at hm
        rcases hm with rfl | hm
        · exact hunseen
        · intro hms
          exact (ih2 m hm) (List.mem_append_left _ hms)
    next =>
      exact specSelect_mn_nodup p ds seen

/-- `_extract_citations` computes exactly the spec-side citation list. -/
theorem extractCitations_eq_spec (docs : List Document) (out : String) :
    extractCitations docs out = (specSelectedDocs out docs).map citeString := by
  unfold extractCitations specSelectedDocs
  rw [citeFirstPass_eq_spec]
  simp only [List.nil_append]
  by_cases h : specSelect (specMentioned out) docs [] = []
  · rw [h]
    simp only [List.map_nil, if_pos rfl]
    rw [citeFallback_eq_spec]
    simp
  · have hne : (specSelect (specMentioned out) docs []).map citeString ≠ [] := by
      simpa using h
    rw [if_neg hne, if_neg h]

/-- C4: on a successful call, the citation list of the formatted response is
the spec-side list: the citations of the documents whose case title or
combined citation string occurs in the raw LLM output, in passage order
with already-seen identifiers skipped — or of every fully-labelled
document when that first pass selects nothing — truncated to the
configured maximum; its length is at most that maximum, and the underlying
citation identifiers are duplicate-free. -/
theorem generate_response_citation_contract (cfg : ResponseConfig)
    (query llm_output : String) (documents : List Document) (resp : FormattedResponse)
    (hq : query ≠ "") (hout : llm_output ≠ "") (hdocs : documents ≠ [])
    (hres : generateResponse cfg query llm_output documents = .ok resp) :
    resp.citations = specCitations cfg llm_output documents ∧
    resp.citations.length ≤ cfg.max_citations ∧
    ((specSelectedDocs llm_output documents).map
      (fun d => d.metadata.media_neutral_citation)).Nodup := by
  have hresval : resp.citations = (extractCitations documents llm_output).take cfg.max_citations := by
    rw [generateResponse, if_neg hq, if_neg hout, if_neg hdocs] at hres
    cases hres
    rfl
  refine ⟨?_, ?_, ?_⟩
  · rw [hresval]
    simp [specCitations, extractCitations_eq_spec]
  · rw [hresval]
    exact List.length_take_le _ _
  · unfold specSelectedDocs
    by_cases h : specSelect (specMentioned llm_output) documents [] = []
    · rw [if_pos h]
      exact (specSelect_mn_nodup _ documents []).1
    · rw [if_neg h]
      exact (specSelect_mn_nodup _ documents []).1

/-- Witness for C4: three passages, one mentioned in the LLM output by case
title, one sharing the mentioned identifier, one unmentioned: the response
cites exactly the mentioned passage, within the configured bound, with
duplicate-free identifiers. -/
theorem generate_response_citation_contract_witness :
    (⟨"q", (parseLlmOutput "See Foo v Bar [2020] KEHC 1.").2,
      (extractCitations
        [⟨"t1", ⟨"Foo v Bar", "[2020] KEHC 1", "", none⟩, none⟩,
         ⟨"t2", ⟨"Foo v Bar", "[2020] KEHC 1", "", none⟩, none⟩,
         ⟨"t3", ⟨"Baz v Qux", "[2021] KEHC 2", "", none⟩, none⟩]
        "See Foo v Bar [2020] KEHC 1.").take 2⟩ : FormattedResponse).citations =
      specCitations ⟨2⟩ "See Foo v Bar [2020] KEHC 1."
        [⟨"t1", ⟨"Foo v Bar", "[2020] KEHC 1", "", none⟩, none⟩,
         ⟨"t2", ⟨"Foo v Bar", "[2020] KEHC 1", "", none⟩, none⟩,
         ⟨"t3", ⟨"Baz v Qux", "[2021] KEHC 2", "", none⟩, none⟩] ∧
    ((specSelectedDocs "See Foo v Bar [2020] KEHC 1."
        [⟨"t1", ⟨"Foo v Bar", "[2020] KEHC 1", "", none⟩, none⟩,
         ⟨"t2", ⟨"Foo v Bar", "[2020] KEHC 1", "", none⟩, none⟩,
         ⟨"t3", ⟨"Baz v Qux", "[2021] KEHC 2", "", none⟩, none⟩]).map
      (fun d => d.metadata.media_neutral_citation)).Nodup := by
  have h := generate_response_citation_contract ⟨2⟩ "q" "See Foo v Bar [2020] KEHC 1."
    [⟨"t1", ⟨"Foo v Bar", "[2020] KEHC 1", "", none⟩, none⟩,
     ⟨"t2", ⟨"Foo v Bar", "[2020] KEHC 1", "", none⟩, none⟩,
     ⟨"t3", ⟨"Baz v Qux", "[2021] KEHC 2", "", none⟩, none⟩]
    ⟨"q", (parseLlmOutput "See Foo v Bar [2020] KEHC 1.").2,
      (extractCitations
        [⟨"t1", ⟨"Foo v Bar", "[2020] KEHC 1", "", none⟩, none⟩,
         ⟨"t2", ⟨"Foo v Bar", "[2020] KEHC 1", "", none⟩, none⟩,
         ⟨"t3", ⟨"Baz v Qux", "[2021] KEHC 2", "", none⟩, none⟩]
        "See Foo v Bar [2020] KEHC 1.").take 2⟩
    (by decide) (by decide) (by decide) rfl
  exact ⟨h.1, h.2.2⟩

/-! ## String lemmas for the response-parser claims -/

/-- CRLF normalization is the identity on carriage-return-free text. -/
theorem normCRLF_eq_self : ∀ l : List Char, '\r' ∉ l → normCRLF l = l
  | [], _ => rfl
  | c :: rest, h => by
    have hc : c ≠ '\r' := fun hEq => h (hEq ▸ List.mem_cons_self c rest)
    have hr : '\r' ∉ rest := fun hm => h (List.mem_cons_of_mem c hm)
    rw [normCRLF.eq_def]
    split
    next heq =>
      rw [List.cons.injEq] at heq
      exact absurd heq.1 hc
    next c2 rest2 _ heq =>
      rw [List.cons.injEq] at heq
      rw [← heq.1, ← heq.2, normCRLF_eq_self rest hr]
    next heq => cases heq

/-- `dropWhile` is the identity when the first character survives. -/
theorem dropWhile_eq_self_of_headOk : ∀ l : List Char, headOk l = true →
    l.dropWhile isPySpace = l
  | [], h => by simp [headOk] at h
  | c :: cs, h => by
    have hc : isPySpace c = false := by simpa [headOk] using h
    simp [List.dropWhile_cons, hc]

/-- `str.strip` is the identity on text with non-whitespace ends. -/
theorem pyStripL_eq_self (l : List Char) (h1 : headOk l = true) (h2 : lastOk l = true) :
    pyStripL l = l := by
  unfold pyStripL
  rw [dropWhile_eq_self_of_headOk l h1]
  rw [dropWhile_eq_self_of_headOk l.reverse h2]
  exact List.reverse_reverse l

/-- A nonempty list with surviving head keeps it under appending. -/
theorem headOk_append_left : ∀ (u v : List Char), headOk u = true →
    headOk (u ++ v) = true
  | [], _, h => by simp [headOk] at h
  | c :: cs, v, h => by simpa [headOk] using h

/-- The last character of an append with nonempty right part is the right
part's last character. -/
theorem lastOk_append_right (u v : List Char) (h : lastOk v = true) :
    lastOk (u ++ v) = true := by
  unfold lastOk at *
  rw [List.reverse_append]
  exact headOk_append_left _ _ h

/-- Dropping the head preserves the last character of a still-nonempty
list. -/
theorem lastOk_cons (c : Char) (a : List Char) (ha : a ≠ []) :
    lastOk (c :: a) = lastOk a := by
  unfold lastOk
  rw [List.reverse_cons]
  cases hrev : a.reverse with
  | nil => exact absurd (by simpa using hrev) ha
  | cons x xs => simp [headOk]

/-- A prefix of `u ++ c :: v` either stays within `u` or contains `c`. -/
theorem prefix_stops_or_contains {p : List Char} {c : Char} :
    ∀ {u v : List Char}, p <+: u ++ c :: v → p <+: u ∨ c ∈ p := by
  intro u
  induction u generalizing p with
  | nil =>
    intro v h
    cases p with
    | nil => exact Or.inl List.nil_prefix
    | cons q qs =>
      rw [List.nil_append, List.cons_prefix_cons] at h
      exact Or.inr (h.1 ▸ List.mem_cons_self _ _)
  | cons d u ih =>
    intro v h
    cases p with
    | nil => exact Or.inl List.nil_prefix
    | cons q qs =>
      rw [List.cons_append, List.cons_prefix_cons] at h
      obtain ⟨rfl, h2⟩ := h
      rcases ih h2 with h3 | h3
      · exact Or.inl (List.cons_prefix_cons.mpr ⟨rfl, h3⟩)
      · exact Or.inr (List.mem_cons_of_mem _ h3)

/-- Star-run removal is the identity on text without a double star, in
either entry state of the scanner. -/
theorem removeStarsGo_eq_self : ∀ l : List Char,
    (¬ ['*', '*'] <:+: l → removeStarsGo .noStar l = l) ∧
    (¬ ['*', '*'] <:+: ('*' :: l) → removeStarsGo .onePending l = '*' :: l)
  | [] => by constructor <;> intro <;> rfl
  | c :: rest => by
    constructor
    · intro h
      by_cases hc : c = '*'
      · rw [removeStarsGo, if_pos hc, ((removeStarsGo_eq_self rest).2 (hc ▸ h))]
        rw [hc]
      · rw [removeStarsGo, if_neg hc]
        have h2 : ¬ ['*', '*'] <:+: rest := fun hin =>
          h (hin.trans (List.suffix_cons c rest).isInfix)
        rw [(removeStarsGo_eq_self rest).1 h2]
    · intro h
      by_cases hc : c = '*'
      · exact absurd ⟨[], rest, by simp [hc]⟩ h
      · rw [removeStarsGo, if_neg hc]
        have h2 : ¬ ['*', '*'] <:+: rest := fun hin =>
          h (hin.trans ((List.suffix_cons c rest).isInfix.trans
            (List.suffix_cons '*' (c :: rest)).isInfix))
        rw [(removeStarsGo_eq_self rest).1 h2]

/-- Star-run removal is the identity on text without a double star. -/
theorem removeStarsL_eq_self (l : List Char) (h : ¬ ['*', '*'] <:+: l) :
    removeStarsL l = l :=
  (removeStarsGo_eq_self l).1 h

/-! ## The primary Final-Answer split -/

/-- A successful tail match exhibits the header inside the input. -/
theorem matchFATail_some_has_header (cs r : List Char) (h : matchFATail cs = some r) :
    faChars <:+: cs := by
  unfold matchFATail at h
  by_cases hp : faChars.isPrefixOf (cs.dropWhile isPySpace)
  · have h1 : faChars <+: cs.dropWhile isPySpace := by
      simpa [ List.isPrefixOf_iff_prefix] using hp
    exact h1.isInfix.trans (List.dropWhile_suffix isPySpace).isInfix
  · rw [if_neg hp] at h
    cases h

/-- A successful primary split exhibits the header inside the input. -/
theorem splitFA_some_has_header : ∀ (l : List Char) (r : List Char × List Char),
    splitFA l = some r → faChars <:+: l
  | [], r, h => by simp [splitFA] at h
  | c :: cs, r, h => by
    have hcons : faChars <:+: cs → faChars <:+: c :: cs := fun hin =>
      hin.trans (List.suffix_cons c cs).isInfix
    rw [splitFA] at h
    by_cases hc : c = '\n'
    · rw [if_pos hc] at h
      cases hmt : matchFATail cs with
      | some rest => exact hcons (matchFATail_some_has_header cs rest hmt)
      | none =>
        rw [hmt] at h
        cases hsp : splitFA cs with
        | some pr => exact hcons (splitFA_some_has_header cs pr hsp)
        | none => rw [hsp] at h; cases h
    · rw [if_neg hc] at h
      cases hsp : splitFA cs with
      | some pr => exact hcons (splitFA_some_has_header cs pr hsp)
      | none => rw [hsp] at h; cases h

/-- Without the literal header in the input, the primary split fails. -/
theorem splitFA_none (l : List Char) (h : ¬ faChars <:+: l) : splitFA l = none := by
  cases hs : splitFA l with
  | none => rfl
  | some r => exact absurd (splitFA_some_has_header l r hs) h

/-- The greedy whitespace-newline chopper fails on input with a surviving
head. -/
theorem chopWsNl_none_of_headOk : ∀ b : List Char, headOk b = true → chopWsNl b = none
  | [], h => by simp [headOk] at h
  | c :: cs, h => by
    have hc : isPySpace c = false := by simpa [headOk] using h
    simp [chopWsNl, hc]

/-- The tail of the split pattern matches right at the header, consuming the
single following newline when the remainder keeps its head. -/
theorem matchFATail_header (b : List Char) (hb : headOk b = true) :
    matchFATail (faChars ++ '\n' :: b) = some b := by
  unfold matchFATail
  have hF : headOk (faChars ++ '\n' :: b) = true := by
    apply headOk_append_left
    decide
  rw [dropWhile_eq_self_of_headOk _ hF]
  have hp : faChars.isPrefixOf (faChars ++ '\n' :: b) = true := by
    simp [ List.isPrefixOf_iff_prefix]
  rw [if_pos hp]
  have hdrop : (faChars ++ '\n' :: b).drop faChars.length = '\n' :: b := List.drop_left _ _
  rw [hdrop, chopWsNl]
  rw [chopWsNl_none_of_headOk b hb]
  simp [isPySpace]

/-- The tail match fails at a newline strictly inside the pre-header text:
the whitespace run after that newline ends within the pre-header text
(whose last character is not whitespace), and the literal header cannot
start there without either occurring inside the pre-header text or
swallowing the separating newline. -/
theorem matchFATail_none (y b : List Char) (hy : lastOk y = true)
    (hno : ¬ faChars <:+: y) :
    matchFATail (y ++ ('\n' :: (faChars ++ '\n' :: b))) = none := by
  have hyne : y ≠ [] := by
    intro h
    rw [h] at hy
    simp [lastOk, headOk] at hy
  obtain ⟨x, hxmem, hxnw⟩ : ∃ x ∈ y, isPySpace x = false := by
    cases hrev : y.reverse with
    | nil => exact absurd (by simpa using hrev) hyne
    | cons c cs =>
      refine ⟨c, ?_, ?_⟩
      · have : c ∈ y.reverse := hrev ▸ List.mem_cons_self c cs
        simpa using this
      · have := hy
        unfold lastOk at this
        rw [hrev] at this
        simpa [headOk] using this
  have hdw : y.dropWhile isPySpace ≠ [] := by
    rw [Ne, List.dropWhile_eq_nil_iff]
    intro hall
    rw [hall x hxmem] at hxnw
    cases hxnw
  have hsplit : (y ++ ('\n' :: (faChars ++ '\n' :: b))).dropWhile isPySpace =
      y.dropWhile isPySpace ++ ('\n' :: (faChars ++ '\n' :: b)) := by
    rw [List.dropWhile_append]
    simp only [List.isEmpty_iff]
    rw [if_neg hdw]
  have hnp : faChars.isPrefixOf
      (y.dropWhile isPySpace ++ ('\n' :: (faChars ++ '\n' :: b))) = false := by
    by_contra hcon
    have htrue : faChars.isPrefixOf
        (y.dropWhile isPySpace ++ ('\n' :: (faChars ++ '\n' :: b))) = true := by
      revert hcon
      cases faChars.isPrefixOf (y.dropWhile isPySpace ++ ('\n' :: (faChars ++ '\n' :: b))) <;>
        simp
    have hpre : faChars <+: y.dropWhile isPySpace ++ '\n' :: (faChars ++ '\n' :: b) := by
      simpa [ List.isPrefixOf_iff_prefix] using htrue
    rcases prefix_stops_or_contains hpre with hca | hca
    · exact hno (hca.isInfix.trans (List.dropWhile_suffix isPySpace).isInfix)
    · revert hca
      decide
  simp only [matchFATail, hsplit, hnp]
  simp

/-- The primary split of `a ++ newline ++ header ++ newline ++ b` is exactly
`(a, b)` when `a` ends in a non-whitespace character, `b` begins with one,
and the header does not occur inside `a`. -/
theorem splitFA_exact (b : List Char) (hb : headOk b = true) :
    ∀ a : List Char, (a = [] ∨ lastOk a = true) → ¬ faChars <:+: a →
    splitFA (a ++ ('\n' :: (faChars ++ '\n' :: b))) = some (a, b)
  | [], _, _ => by
    rw [List.nil_append, splitFA, if_pos rfl, matchFATail_header b hb]
  | c :: a, hlast, hno => by
    have hlast2 : lastOk (c :: a) = true := by
      rcases hlast with h | h
      · cases h
      · exact h
    have hnoa : ¬ faChars <:+: a := fun hin =>
      hno (hin.trans (List.suffix_cons c a).isInfix)
    have hrec : a = [] ∨ lastOk a = true := by
      cases ha : a with
      | nil => exact Or.inl rfl
      | cons x xs =>
        right
        rw [← ha]
        rw [← lastOk_cons c a (by rw [ha]; exact List.cons_ne_nil x xs)]
        exact hlast2
    rw [List.cons_append, splitFA]
    by_cases hc : c = '\n'
    · rw [if_pos hc]
      have hane : a ≠ [] := by
        intro h
        rw [h, hc] at hlast2
        simp [lastOk, headOk, isPySpace] at hlast2
      have hlasta : lastOk a = true := by
        rcases hrec with h | h
        · exact absurd h hane
        · exact h
      rw [matchFATail_none a b hlasta hnoa]
      rw [splitFA_exact b hb a hrec hnoa]
    · rw [if_neg hc]
      rw [splitFA_exact b hb a hrec hnoa]

/-! ## C2: the primary parse -/

/-- The primary-path reasoning transform described by the spec: strip a
leading `Reasoning:` label from the (already stripped) text before the
header. -/
def stripLabel (l : List Char) : List Char :=
  if reasoningLabel.isPrefixOf l then pyStripL (l.drop reasoningLabel.length) else l

/-- C2 counterexample: the claim promises the primary parse for every input
with exactly one Final-Answer header line, but with the header as the very
first line the split regex finds no preceding newline and the fallback
path runs instead: the reasoning is the whole input and the final answer
is empty, not the text after the header. -/
theorem parse_primary_header_first_line_counterexample :
    parseLlmOutput "Final Answer:\nfoo" = ("Final Answer:\nfoo", "") ∧
    parseLlmOutput "Final Answer:\nfoo" ≠ ("", "foo") := by
  constructor <;> decide

/-- C2 amended: for every input `A ++ newline ++ "Final Answer:" ++ newline
++ B` whose single header line is interior — non-blank stripped text on
both sides (`A`, `B` with non-whitespace first and last characters), no
carriage returns, and no other occurrence of the header text — the parser
takes the primary path: reasoning is `A` with a leading `Reasoning:` label
stripped, final answer is `B`, both after star-run removal and
trimming. -/
theorem parse_primary_interior_header (A B : String)
    (hA1 : headOk A.data = true) (hA2 : lastOk A.data = true)
    (hB1 : headOk B.data = true) (hB2 : lastOk B.data = true)
    (hAr : '\r' ∉ A.data) (hBr : '\r' ∉ B.data)
    (hAfa : ¬ faChars <:+: A.data) (_hBfa : ¬ faChars <:+: B.data) :
    parseLlmOutput (A ++ "\nFinal Answer:\n" ++ B) =
      (String.mk (pyStripL (removeStarsL (stripLabel A.data))),
       String.mk (pyStripL (removeStarsL B.data))) := by
  have hdata : (A ++ "\nFinal Answer:\n" ++ B).data =
      A.data ++ ('\n' :: (faChars ++ '\n' :: B.data)) := by
    rw [String.data_append, String.data_append]
    have hlit : ("\nFinal Answer:\n" : String).data = '\n' :: (faChars ++ ['\n']) := by decide
    rw [hlit]
    simp [List.append_assoc]
  have hrn : '\r' ∉ A.data ++ ('\n' :: (faChars ++ '\n' :: B.data)) := by
    intro hmem
    rw [List.mem_append] at hmem
    rcases hmem with h | h
    · exact hAr h
    · rw [List.mem_cons] at h
      rcases h with h | h
      · exact absurd h (by decide)
      · rw [List.mem_append] at h
        rcases h with h | h
        · revert h
          decide
        · rw [List.mem_cons] at h
          rcases h with h | h
          · exact absurd h (by decide)
          · exact hBr h
  have hhead : headOk (A.data ++ ('\n' :: (faChars ++ '\n' :: B.data))) = true :=
    headOk_append_left _ _ hA1
  have hshape : A.data ++ ('\n' :: (faChars ++ '\n' :: B.data)) =
      (A.data ++ ('\n' :: faChars) ++ ['\n']) ++ B.data := by
    simp
  have hlast : lastOk (A.data ++ ('\n' :: (faChars ++ '\n' :: B.data))) = true := by
    rw [hshape]
    exact lastOk_append_right _ _ hB2
  simp only [parseLlmOutput, parseCore]
  rw [hdata, normCRLF_eq_self _ hrn, pyStripL_eq_self _ hhead hlast,
    splitFA_exact B.data hB1 A.data (Or.inr hA2) hAfa]
  simp only []
  rw [pyStripL_eq_self A.data hA1 hA2, pyStripL_eq_self B.data hB1 hB2]
  rfl

/-- Witness for C2 (amended) on a concrete labelled input: the reasoning
label is stripped and the trailing text becomes the final answer. -/
theorem parse_primary_interior_header_witness :
    parseLlmOutput ("Reasoning: why" ++ "\nFinal Answer:\n" ++ "yes.") =
      (String.mk (pyStripL (removeStarsL (stripLabel "Reasoning: why".data))),
       String.mk (pyStripL (removeStarsL "yes.".data))) :=
  parse_primary_interior_header "Reasoning: why" "yes." (by decide) (by decide)
    (by decide) (by decide) (by decide) (by decide) (by decide) (by decide)

/-! ## C3: the fallback answer search -/

/-- Case-insensitive occurrence of a literal anywhere in the text. -/
def ciOccurs (pat l : List Char) : Bool :=
  l.tails.any (fun t => ciIsPre pat t)

/-- A case-insensitive prefix test against an append only reads the left
part when the pattern fits inside it. -/
theorem ciIsPre_append_of_le : ∀ (p u v : List Char), p.length ≤ u.length →
    ciIsPre p (u ++ v) = ciIsPre p u
  | [], _, _, _ => by simp [ciIsPre]
  | q :: ps, [], _, h => by simp at h
  | q :: ps, c :: u, v, h => by
    rw [List.cons_append, ciIsPre, ciIsPre,
      ciIsPre_append_of_le ps u v (by simpa using h)]

/-- A case-insensitive match reaching past the left part of an append
continues with the rest of the pattern on the right part. -/
theorem ciIsPre_append_split : ∀ (u p v : List Char), ciIsPre p (u ++ v) = true →
    u.length < p.length → ciIsPre (p.drop u.length) v = true
  | [], p, v, h, _ => by simpa using h
  | c :: u, [], v, _, hlt => by simp at hlt
  | c :: u, q :: ps, v, h, hlt => by
    rw [List.cons_append, ciIsPre, Bool.and_eq_true] at h
    exact ciIsPre_append_split u ps v h.2 (by simpa using hlt)

/-- A case-insensitive match of a concatenated pattern matches its second
half further along. -/
theorem ciIsPre_append_pattern : ∀ (h1 h2 u : List Char),
    ciIsPre (h1 ++ h2) u = true → ciIsPre h2 (u.drop h1.length) = true
  | [], h2, u, h => by simpa using h
  | c :: h1, h2, [], h => by
    rw [List.cons_append, ciIsPre.eq_def] at h
    cases h
  | c :: h1, h2, d :: u, h => by
    rw [List.cons_append, ciIsPre, Bool.and_eq_true] at h
    exact ciIsPre_append_pattern h1 h2 u h.2

/-- If no position strictly inside the left part begins a whole-pattern
match, the leftmost search over the append is the search over the right
part. -/
theorem findAnswerMatch_append : ∀ u : List Char, ∀ v : List Char,
    (∀ y : List Char, y ≠ [] → y <:+ u → findHeader ansHeaders (y ++ v) = none) →
    findAnswerMatch (u ++ v) = findAnswerMatch v
  | [], v, _ => by rw [List.nil_append]
  | c :: u, v, hu => by
    rw [List.cons_append, findAnswerMatch]
    have h1 : findHeader ansHeaders (c :: (u ++ v)) = none := by
      have := hu (c :: u) (List.cons_ne_nil c u) List.suffix_rfl
      rwa [List.cons_append] at this
    rw [h1]
    exact findAnswerMatch_append u v (fun y hy hsuf =>
      hu y hy (hsuf.trans (List.suffix_cons c u)))

/-- No nonempty suffix of the header alternatives, shorter than the
whole alternative, matches at the Conclusion line (concrete check). -/
theorem header_tail_no_match_fa :
    ∀ h2 ∈ "final answer".data.tails, h2 ≠ [] →
      ciIsPre h2 "Conclusion: ".data = false := by decide

/-- Likewise for the bare Answer alternative. -/
theorem header_tail_no_match_ans :
    ∀ h2 ∈ "answer".data.tails, h2 ≠ [] →
      ciIsPre h2 "Conclusion: ".data = false := by decide

/-- Likewise for proper suffixes of the Conclusion alternative. -/
theorem header_tail_no_match_conc :
    ∀ h2 ∈ "conclusion".data.tails, h2 ≠ [] → h2.length < 10 →
      ciIsPre h2 "Conclusion: ".data = false := by decide

/-- A text with no case-insensitive occurrence of `answer` or `conclusion`
admits no whole-pattern header match at any position strictly before the
appended Conclusion line: a match inside the text would be such an
occurrence, and a match crossing the boundary would need a proper suffix
of a header alternative to begin the Conclusion line, which the concrete
checks exclude. -/
theorem findHeader_none_before_conclusion (Pl D : List Char)
    (hans : ciOccurs "answer".data Pl = false)
    (hconc : ciOccurs "conclusion".data Pl = false) :
    ∀ y : List Char, y ≠ [] → y <:+ Pl →
      findHeader ansHeaders (y ++ ("Conclusion: ".data ++ D)) = none := by
  intro y hyne hysuf
  have hOcc : ∀ pat : List Char, ciOccurs pat Pl = false → ∀ z : List Char, z <:+ Pl →
      ciIsPre pat z = false := by
    intro pat hpat z hz
    rw [ciOccurs, List.any_eq_false] at hpat
    have := hpat z ((List.mem_tails _ _).mpr hz)
    revert this
    cases ciIsPre pat z <;> simp
  have hynelen : 1 ≤ y.length := by
    cases y with
    | nil => exact absurd rfl hyne
    | cons c cs => simp
  have hcross : ∀ pat : List Char, pat.length ≤ 12 →
      ciIsPre pat (y ++ ("Conclusion: ".data ++ D)) = true → y.length < pat.length →
      ciIsPre (pat.drop y.length) "Conclusion: ".data = true ∧
        (pat.drop y.length) ≠ [] ∧ (pat.drop y.length).length < pat.length := by
    intro pat hlen h hlt
    have hsplit := ciIsPre_append_split y pat ("Conclusion: ".data ++ D) h hlt
    have hdlen : (pat.drop y.length).length = pat.length - y.length := List.length_drop _ _
    refine ⟨?_, ?_, ?_⟩
    · rw [← ciIsPre_append_of_le (pat.drop y.length) "Conclusion: ".data D (by simp [hdlen]; omega)]
      exact hsplit
    · intro hnil
      rw [hnil] at hdlen
      simp at hdlen
      omega
    · omega
  have hfa : ciIsPre "final answer".data (y ++ ("Conclusion: ".data ++ D)) = false := by
    by_contra hcon
    have htrue : ciIsPre "final answer".data (y ++ ("Conclusion: ".data ++ D)) = true := by
      revert hcon
      cases ciIsPre "final answer".data (y ++ ("Conclusion: ".data ++ D)) <;> simp
    by_cases hlt : y.length < ("final answer".data).length
    · obtain ⟨hm, hne, _⟩ := hcross "final answer".data (by decide) htrue hlt
      have := header_tail_no_match_fa ("final answer".data.drop y.length)
        ((List.mem_tails _ _).mpr (List.drop_suffix _ _)) hne
      rw [this] at hm
      cases hm
    · push_neg at hlt
      have hiny : ciIsPre "final answer".data y = true := by
        rw [← ciIsPre_append_of_le "final answer".data y ("Conclusion: ".data ++ D) hlt]
        exact htrue
      have hans2 : ciIsPre "answer".data (y.drop 6) = true := by
        have hsplitpat : ("final ".data ++ "answer".data) = "final answer".data := by decide
        have := ciIsPre_append_pattern "final ".data "answer".data y (by rw [hsplitpat]; exact hiny)
        simpa using this
      have := hOcc "answer".data hans (y.drop 6) ((List.drop_suffix 6 y).trans hysuf)
      rw [this] at hans2
      cases hans2
  have hanswer : ciIsPre "answer".data (y ++ ("Conclusion: ".data ++ D)) = false := by
    by_contra hcon
    have htrue : ciIsPre "answer".data (y ++ ("Conclusion: ".data ++ D)) = true := by
      revert hcon
      cases ciIsPre "answer".data (y ++ ("Conclusion: ".data ++ D)) <;> simp
    by_cases hlt : y.length < ("answer".data).length
    · obtain ⟨hm, hne, _⟩ := hcross "answer".data (by decide) htrue hlt
      have := header_tail_no_match_ans ("answer".data.drop y.length)
        ((List.mem_tails _ _).mpr (List.drop_suffix _ _)) hne
      rw [this] at hm
      cases hm
    · push_neg at hlt
      have hiny : ciIsPre "answer".data y = true := by
        rw [← ciIsPre_append_of_le "answer".data y ("Conclusion: ".data ++ D) hlt]
        exact htrue
      have := hOcc "answer".data hans y hysuf
      rw [this] at hiny
      cases hiny
  have hconcl : ciIsPre "conclusion".data (y ++ ("Conclusion: ".data ++ D)) = false := by
    by_contra hcon
    have htrue : ciIsPre "conclusion".data (y ++ ("Conclusion: ".data ++ D)) = true := by
      revert hcon
      cases ciIsPre "conclusion".data (y ++ ("Conclusion: ".data ++ D)) <;> simp
    by_cases hlt : y.length < ("conclusion".data).length
    · obtain ⟨hm, hne, hshort⟩ := hcross "conclusion".data (by decide) htrue hlt
      have := header_tail_no_match_conc ("conclusion".data.drop y.length)
        ((List.mem_tails _ _).mpr (List.drop_suffix _ _)) hne (by simpa using hshort)
      rw [this] at hm
      cases hm
    · push_neg at hlt
      have hiny : ciIsPre "conclusion".data y = true := by
        rw [← ciIsPre_append_of_le "conclusion".data y ("Conclusion: ".data ++ D) hlt]
        exact htrue
      have := hOcc "conclusion".data hconc y hysuf
      rw [this] at hiny
      cases hiny
  have nfa : ¬ ciIsPre "final answer".data (y ++ ("Conclusion: ".data ++ D)) = true := by
    rw [hfa]
    simp
  have nans : ¬ ciIsPre "answer".data (y ++ ("Conclusion: ".data ++ D)) = true := by
    rw [hanswer]
    simp
  have nconc : ¬ ciIsPre "conclusion".data (y ++ ("Conclusion: ".data ++ D)) = true := by
    rw [hconcl]
    simp
  rw [ansHeaders, findHeader, if_neg nfa, findHeader, if_neg nans, findHeader, if_neg nconc,
    findHeader]

/-- The lazy capture runs through newline-free text and stops at the first
newline when the terminator accepts what follows. -/
theorem ansCapture_through (z : List Char) (hz : ansTermOK z = true) :
    ∀ x : List Char, '\n' ∉ x → ansCapture (x ++ '\n' :: z) = some x
  | [], _ => by
    rw [List.nil_append, ansCapture]
    simp [hz]
  | c :: x, h => by
    have hc : c ≠ '\n' := fun hEq => h (hEq ▸ List.mem_cons_self c x)
    have hx : '\n' ∉ x := fun hm => h (List.mem_cons_of_mem c hm)
    rw [List.cons_append, ansCapture, ansCapture_through z hz x hx]
    simp [hc]

/-- The optional newline does not fire on a non-newline head. -/
theorem ansNlCap_not_nl (c : Char) (r : List Char) (hc : c ≠ '\n') :
    ansNlCap (c :: r) = ansCapture (c :: r) := by
  rw [ansNlCap.eq_def]
  split
  next rest heq =>
    rw [List.cons.injEq] at heq
    exact absurd heq.1 hc
  next => rfl

/-- After the colon and its following space, the answer body captures the
newline-free text up to the separator accepted by the terminator. -/
theorem ansBody_at_answer (x z : List Char) (hx : headOk x = true) (hnl : '\n' ∉ x)
    (hz : ansTermOK z = true) : ansBody (x ++ '\n' :: z) = some x := by
  cases x with
  | nil => simp [headOk] at hx
  | cons c cs =>
    have hcw : isPySpace c = false := by simpa [headOk] using hx
    have hcn : c ≠ '\n' := by
      intro hEq
      rw [hEq] at hcw
      simp [isPySpace] at hcw
    have hcs : '\n' ∉ cs := fun hm => hnl (List.mem_cons_of_mem c hm)
    rw [List.cons_append, ansBody, if_neg (by simp [hcw])]
    rw [ansNlCap_not_nl c _ hcn, ← List.cons_append]
    exact ansCapture_through z hz (c :: cs) hnl

/-- The leftmost fallback answer match of `Conclusion-colon-space ++ x ++
newline ++ q` captures exactly `x` when `x` is newline-free with a
non-whitespace head and the terminator accepts `q`. -/
theorem findAnswerMatch_at_conclusion (x q : List Char)
    (hx1 : headOk x = true) (hxnl : '\n' ∉ x) (hq : ansTermOK q = true) :
    findAnswerMatch ("Conclusion: ".data ++ (x ++ '\n' :: q)) = some x := by
  have hCD : "Conclusion: ".data = 'C' :: "onclusion: ".data := by decide
  have hfa : ciIsPre "final answer".data ("Conclusion: ".data ++ (x ++ '\n' :: q)) = false := by
    rw [ciIsPre_append_of_le _ _ _ (by decide)]
    decide
  have hans : ciIsPre "answer".data ("Conclusion: ".data ++ (x ++ '\n' :: q)) = false := by
    rw [ciIsPre_append_of_le _ _ _ (by decide)]
    decide
  have hconc : ciIsPre "conclusion".data ("Conclusion: ".data ++ (x ++ '\n' :: q)) = true := by
    rw [ciIsPre_append_of_le _ _ _ (by decide)]
    decide
  have hdrop : ("Conclusion: ".data ++ (x ++ '\n' :: q)).drop 10 =
      ':' :: ' ' :: (x ++ '\n' :: q) := by
    rw [List.drop_append_of_le_length (by decide)]
    have hten : "Conclusion: ".data.drop 10 = [':', ' '] := by decide
    rw [hten]
    rfl
  have hfh : findHeader ansHeaders ("Conclusion: ".data ++ (x ++ '\n' :: q)) =
      some (':' :: ' ' :: (x ++ '\n' :: q)) := by
    rw [ansHeaders, findHeader, if_neg (by rw [hfa]; simp), findHeader,
      if_neg (by rw [hans]; simp), findHeader, if_pos hconc]
    have hlen : ("conclusion".data).length = 10 := by decide
    rw [hlen, hdrop]
  have hbody : ansBody (' ' :: (x ++ '\n' :: q)) = some x := by
    rw [ansBody, if_pos (by decide), ansBody_at_answer x q hx1 hxnl hq]
  have hafter : ansAfterHeader (':' :: ' ' :: (x ++ '\n' :: q)) = some x := by
    rw [ansAfterHeader, hbody]
  rw [hCD, List.cons_append, findAnswerMatch]
  rw [← List.cons_append, ← hCD, hfh]
  simp only [hafter]

/-- Auxiliary for C3: the fallback extracts the text of an interior
`Conclusion:` line as the final answer, under the conditions the fallback
regex actually needs: the line is followed by a further line accepted by
the terminator, the captured text is newline-free among other
hygiene conditions, the preceding text contains no earlier header
occurrence, and the primary header is absent. -/
theorem conclusion_capture_aux (P X Q : String)
    (hP : P.data = [] ∨ headOk P.data = true)
    (hPr : '\r' ∉ P.data) (hXr : '\r' ∉ X.data) (hQr : '\r' ∉ Q.data)
    (hX1 : headOk X.data = true) (hX2 : lastOk X.data = true)
    (hXnl : '\n' ∉ X.data) (hXstar : ¬ ['*', '*'] <:+: X.data)
    (hQ2 : lastOk Q.data = true) (hQt : ansTermOK Q.data = true)
    (hans : ciOccurs "answer".data P.data = false)
    (hconc : ciOccurs "conclusion".data P.data = false)
    (hfa : ¬ faChars <:+: P.data ++ ("Conclusion: ".data ++ (X.data ++ '\n' :: Q.data))) :
    (parseLlmOutput (P ++ "Conclusion: " ++ X ++ "\n" ++ Q)).2 = X := by
  have hdata : (P ++ "Conclusion: " ++ X ++ "\n" ++ Q).data =
      P.data ++ ("Conclusion: ".data ++ (X.data ++ '\n' :: Q.data)) := by
    simp only [String.data_append, List.append_assoc]
    simp
  have hrn : '\r' ∉ P.data ++ ("Conclusion: ".data ++ (X.data ++ '\n' :: Q.data)) := by
    intro hm
    rcases List.mem_append.mp hm with h | h
    · exact hPr h
    rcases List.mem_append.mp h with h | h
    · revert h
      decide
    rcases List.mem_append.mp h with h | h
    · exact hXr h
    rcases List.mem_cons.mp h with h | h
    · exact absurd h (by decide)
    · exact hQr h
  have hhead : headOk (P.data ++ ("Conclusion: ".data ++ (X.data ++ '\n' :: Q.data))) = true := by
    rcases hP with h | h
    · rw [h, List.nil_append]
      exact headOk_append_left _ _ (by decide)
    · exact headOk_append_left _ _ h
  have hshape : P.data ++ ("Conclusion: ".data ++ (X.data ++ '\n' :: Q.data)) =
      (P.data ++ "Conclusion: ".data ++ X.data ++ ['\n']) ++ Q.data := by
    simp
  have hlast : lastOk (P.data ++ ("Conclusion: ".data ++ (X.data ++ '\n' :: Q.data))) = true := by
    rw [hshape]
    exact lastOk_append_right _ _ hQ2
  have hmatch : findAnswerMatch
      (P.data ++ ("Conclusion: ".data ++ (X.data ++ '\n' :: Q.data))) = some X.data := by
    rw [findAnswerMatch_append P.data _
      (findHeader_none_before_conclusion P.data _ hans hconc)]
    exact findAnswerMatch_at_conclusion X.data Q.data hX1 hXnl hQt
  simp only [parseLlmOutput, parseCore]
  rw [hdata, normCRLF_eq_self _ hrn, pyStripL_eq_self _ hhead hlast,
    splitFA_none _ hfa]
  simp only [hmatch]
  rw [pyStripL_eq_self X.data hX1 hX2, removeStarsL_eq_self X.data hXstar,
    pyStripL_eq_self X.data hX1 hX2]

/-- Auxiliary for C3: when neither the primary split nor the fallback
answer search matches, the final answer is the fixed sentinel. -/
theorem sentinel_aux (s : String)
    (h1 : splitFA (pyStripL (normCRLF s.data)) = none)
    (h2 : findAnswerMatch (pyStripL (normCRLF s.data)) = none) :
    (parseLlmOutput s).2 = noAnswerSentinel := by
  simp only [parseLlmOutput, parseCore]
  rw [h1]
  simp only [h2]
  decide

/-- C3 counterexample: the claim promises final_answer `X` for any input
containing `Conclusion: X` and no Final-Answer header, but on the input
consisting of that single line the fallback terminator finds no following
newline, no answer is captured, and the sentinel is returned instead of
`X`. -/
theorem parse_conclusion_single_line_counterexample :
    (parseLlmOutput "Conclusion: X").2 =
      "No conclusive answer could be extracted from the LLM output due to formatting issues." ∧
    (parseLlmOutput "Conclusion: X").2 ≠ "X" := by
  constructor <;> decide

/-- C3 amended: with no Final-Answer header, a `Conclusion: X` line resolves
final_answer to `X` when the line is interior — followed by a newline and
a further non-blank line the terminator accepts — the captured text `X` is
a newline-free trimmed segment without star runs, and no earlier
case-insensitive `answer`/`conclusion` occurrence precedes it; and when
the fallback finds no answer segment at all, final_answer is the fixed
sentinel string. -/
theorem parse_conclusion_fallback_final_answer :
    (∀ P X Q : String,
      P.data = [] ∨ headOk P.data = true →
      '\r' ∉ P.data → '\r' ∉ X.data → '\r' ∉ Q.data →
      headOk X.data = true → lastOk X.data = true →
      '\n' ∉ X.data → ¬ ['*', '*'] <:+: X.data →
      lastOk Q.data = true → ansTermOK Q.data = true →
      ciOccurs "answer".data P.data = false →
      ciOccurs "conclusion".data P.data = false →
      ¬ faChars <:+: P.data ++ ("Conclusion: ".data ++ (X.data ++ '\n' :: Q.data)) →
      (parseLlmOutput (P ++ "Conclusion: " ++ X ++ "\n" ++ Q)).2 = X) ∧
    (∀ s : String, splitFA (pyStripL (normCRLF s.data)) = none →
      findAnswerMatch (pyStripL (normCRLF s.data)) = none →
      (parseLlmOutput s).2 = noAnswerSentinel) :=
  ⟨fun P X Q hP hPr hXr hQr hX1 hX2 hXnl hXstar hQ2 hQt hans hconc hfa =>
    conclusion_capture_aux P X Q hP hPr hXr hQr hX1 hX2 hXnl hXstar hQ2 hQt hans hconc hfa,
   fun s h1 h2 => sentinel_aux s h1 h2⟩

/-- Witness for C3 (amended): a concrete reasoning paragraph followed by a
Conclusion line yields that conclusion as the final answer, and an input
with no recognizable answer segment yields the sentinel. -/
theorem parse_conclusion_fallback_final_answer_witness :
    (parseLlmOutput ("Based on precedent.\n" ++ "Conclusion: " ++ "The objection stands" ++
      "\n" ++ "End of opinion.")).2 = "The objection stands" ∧
    (parseLlmOutput "abc").2 = noAnswerSentinel :=
  ⟨parse_conclusion_fallback_final_answer.1 "Based on precedent.\n" "The objection stands"
      "End of opinion." (by decide) (by decide) (by decide) (by decide) (by decide) (by decide)
      (by decide) (by decide) (by decide) (by decide) (by decide) (by decide) (by decide),
   parse_conclusion_fallback_final_answer.2 "abc" (by decide) (by decide)⟩

/-! ## C6: the pipeline orchestrator -/

/-- A traversal in which every attempt raises keeps the entry accumulator. -/
theorem tryProviders_all_err (call : Provider → String → String → CallResult)
    (sys usr : String) (hcall : ∀ p, call p sys usr = .err) :
    ∀ (ps : List Provider) (best : Option String), tryProviders call sys usr ps best = best
  | [], best => rfl
  | p :: ps, best => by
    rw [tryProviders, hcall p]
    exact tryProviders_all_err call sys usr hcall ps best

/-- With matching candidates but every provider call raising, `generate`
fails with the terminal all-providers condition. -/
theorem generate_all_err (providers : List Provider)
    (shuffle : List Provider → List Provider)
    (call : Provider → String → String → CallResult)
    (q : String) (docs : List Document) (mid : String) (mt : Int)
    (hq : q ≠ "") (hmid : mid ≠ "") (hmt : 0 < mt)
    (hany : providers.any (fun p => p.model_name == mid) = true)
    (hcall : ∀ p sys usr, call p sys usr = .err) :
    generate providers shuffle call q docs mid mt =
      .error (.runtimeError "All LLM providers failed. Check API keys and configurations.") := by
  have hfil : providers.filter (fun p => p.model_name == mid) ≠ [] := by
    rcases List.any_eq_true.mp hany with ⟨p, hp, hpm⟩
    intro hnil
    have : p ∈ providers.filter (fun p => p.model_name == mid) :=
      List.mem_filter.mpr ⟨hp, hpm⟩
    rw [hnil] at this
    cases this
  have hmt2 : ¬ mt ≤ 0 := by omega
  simp only [generate, if_neg hq, if_neg hmid, if_neg hmt2, hany, Bool.not_true,
    Bool.false_eq_true, if_false, if_neg hfil]
  rw [tryProviders_all_err _ _ _ (fun p => hcall p _ _)]

/-- With a nonempty shuffled candidate list and every provider call
returning the same non-empty header-bearing response, `generate` succeeds
with that response. -/
theorem generate_all_resp (providers : List Provider)
    (shuffle : List Provider → List Provider)
    (call : Provider → String → String → CallResult)
    (q : String) (docs : List Document) (mid : String) (mt : Int) (R : String)
    (p2 : Provider) (rest : List Provider)
    (hq : q ≠ "") (hmid : mid ≠ "") (hmt : 0 < mt)
    (hany : providers.any (fun p => p.model_name == mid) = true)
    (hsh : shuffle (providers.filter (fun p => p.model_name == mid)) = p2 :: rest)
    (hcall : ∀ p sys usr, call p sys usr = .resp R)
    (hR : R ≠ "") (hfa : hasFinalAnswer R = true) :
    generate providers shuffle call q docs mid mt = .ok R := by
  have hfil : providers.filter (fun p => p.model_name == mid) ≠ [] := by
    rcases List.any_eq_true.mp hany with ⟨p, hp, hpm⟩
    intro hnil
    have : p ∈ providers.filter (fun p => p.model_name == mid) :=
      List.mem_filter.mpr ⟨hp, hpm⟩
    rw [hnil] at this
    cases this
  have hmt2 : ¬ mt ≤ 0 := by omega
  simp only [generate, if_neg hq, if_neg hmid, if_neg hmt2, hany, Bool.not_true,
    Bool.false_eq_true, if_false, if_neg hfil, hsh]
  rw [tryProviders, hcall p2 _ _]
  simp [hR, hfa]

/-- The Chain-of-Thought prompt is never the empty string. -/
theorem cotFormat_ne_empty (q : String) (docs : List Document) : cotFormat q docs ≠ "" := by
  intro h
  have hdata := congrArg String.data h
  simp [cotFormat, cotTemplateHead, String.data_append] at hdata

/-- C6: the pipeline is all-or-nothing per query.  Whichever of the five
stages first fails on every attempt of its 3-attempt retry policy, `run`
surfaces a single wrapped `RuntimeError` naming that stage and returns no
result (the other stage outputs are discarded); when every stage succeeds,
`run` returns exactly the assembled record of query, embedding, reranked
documents, final answer, and citations. -/
theorem pipeline_all_or_nothing (env : RagEnv) (q : String) (hq : q ≠ "") :
    (∀ e, (∀ k, env.embedO k = .error e) →
      runPipeline env q =
        .error (.runtimeError ("Pipeline failed: Embedding failed: " ++ e.msg))) ∧
    (∀ v e, (∀ k, env.embedO k = .ok v) → (∀ k, env.retrieveO v k = .error e) →
      runPipeline env q =
        .error (.runtimeError ("Pipeline failed: Retrieval failed: " ++ e.msg))) ∧
    (∀ v docs e, (∀ k, env.embedO k = .ok v) → (∀ k, env.retrieveO v k = .ok docs) →
      docs ≠ [] → env.predictO q docs = .error e →
      runPipeline env q =
        .error (.runtimeError
          ("Pipeline failed: Reranking failed: Reranking failed: " ++ e.msg))) ∧
    (∀ v docs scores, (∀ k, env.embedO k = .ok v) → (∀ k, env.retrieveO v k = .ok docs) →
      env.predictO q docs = .ok scores →
      env.model_id ≠ "" → 0 < env.max_tokens →
      env.providers.any (fun p => p.model_name == env.model_id) = true →
      (∀ p sys usr, env.callO p sys usr = .err) →
      runPipeline env q =
        .error (.runtimeError
          ("Pipeline failed: Generation failed: All LLM providers failed. Check API keys and configurations."))) ∧
    (∀ v R p2 rest, (∀ k, env.embedO k = .ok v) → (∀ k, env.retrieveO v k = .ok []) →
      env.model_id ≠ "" → 0 < env.max_tokens →
      env.providers.any (fun p => p.model_name == env.model_id) = true →
      env.shuffleO (env.providers.filter (fun p => p.model_name == env.model_id)) =
        p2 :: rest →
      (∀ p sys usr, env.callO p sys usr = .resp R) → R ≠ "" → hasFinalAnswer R = true →
      runPipeline env q =
        .error (.runtimeError
          ("Pipeline failed: Response formatting failed: Documents must be a non-empty list of Document objects."))) ∧
    (∀ v docs scores R p2 rest,
      (∀ k, env.embedO k = .ok v) → (∀ k, env.retrieveO v k = .ok docs) →
      env.predictO q docs = .ok scores →
      env.model_id ≠ "" → 0 < env.max_tokens →
      env.providers.any (fun p => p.model_name == env.model_id) = true →
      env.shuffleO (env.providers.filter (fun p => p.model_name == env.model_id)) =
        p2 :: rest →
      (∀ p sys usr, env.callO p sys usr = .resp R) → R ≠ "" → hasFinalAnswer R = true →
      (sortDesc (scoredList docs scores)).take env.rerankCfg.top_n ≠ [] →
      runPipeline env q =
        .ok ⟨q, v, (sortDesc (scoredList docs scores)).take env.rerankCfg.top_n,
          (parseLlmOutput R).2,
          (extractCitations ((sortDesc (scoredList docs scores)).take env.rerankCfg.top_n)
            R).take env.respCfg.max_citations⟩) := by
  refine ⟨?_, ?_, ?_, ?_, ?_, ?_⟩
  · intro e hembed
    have hst : retryFrom (runEmbedding env q) 0 2 =
        (3, .error (.runtimeError ("Embedding failed: " ++ e.msg))) :=
      retryFrom_const_error _ _ (fun k => by simp [runEmbedding, hq, hembed k]) 2 0
    simp only [runPipeline, hst, PyError.msg]
    rw [← String.append_assoc,
      (by decide : ("Pipeline failed: " ++ "Embedding failed: " : String) =
        "Pipeline failed: Embedding failed: ")]
  · intro v e hembed hret
    have hst1 : retryFrom (runEmbedding env q) 0 2 = (1, .ok v) :=
      retryFrom_first_ok _ v 0 (by simp [runEmbedding, hq, hembed 0]) 2
    have hst2 : retryFrom (runRetrieval env v) 0 2 =
        (3, .error (.runtimeError ("Retrieval failed: " ++ e.msg))) :=
      retryFrom_const_error _ _ (fun k => by simp [runRetrieval, hret k]) 2 0
    simp only [runPipeline, hst1, hst2, PyError.msg]
    rw [← String.append_assoc,
      (by decide : ("Pipeline failed: " ++ "Retrieval failed: " : String) =
        "Pipeline failed: Retrieval failed: ")]
  · intro v docs e hembed hret hdocs hpred
    have hst1 : retryFrom (runEmbedding env q) 0 2 = (1, .ok v) :=
      retryFrom_first_ok _ v 0 (by simp [runEmbedding, hq, hembed 0]) 2
    have hst2 : retryFrom (runRetrieval env v) 0 2 = (1, .ok docs) :=
      retryFrom_first_ok _ docs 0 (by simp [runRetrieval, hret 0]) 2
    have hrer : rerank env.rerankCfg env.predictO q docs =
        .error (.runtimeError ("Reranking failed: " ++ e.msg)) := by
      simp [rerank, hq, hdocs, hpred]
    have hinner : retryFrom (fun _ => rerank env.rerankCfg env.predictO q docs) 0 2 =
        (3, .error (.runtimeError ("Reranking failed: " ++ e.msg))) :=
      retryFrom_const_error _ _ (fun _ => hrer) 2 0
    have hst3 : retryFrom (runReranking env q docs) 0 2 =
        (3, .error (.runtimeError
          ("Reranking failed: " ++ ("Reranking failed: " ++ e.msg)))) :=
      retryFrom_const_error _ _ (fun k => by simp [runReranking, hinner, PyError.msg]) 2 0
    simp only [runPipeline, hst1, hst2, hst3, PyError.msg]
    rw [← String.append_assoc, ← String.append_assoc,
      (by decide : ("Pipeline failed: " ++ "Reranking failed: " ++ "Reranking failed: " : String) =
        "Pipeline failed: Reranking failed: Reranking failed: ")]
  · intro v docs scores hembed hret hpred hmid hmt hany hcall
    have hst1 : retryFrom (runEmbedding env q) 0 2 = (1, .ok v) :=
      retryFrom_first_ok _ v 0 (by simp [runEmbedding, hq, hembed 0]) 2
    have hst2 : retryFrom (runRetrieval env v) 0 2 = (1, .ok docs) :=
      retryFrom_first_ok _ docs 0 (by simp [runRetrieval, hret 0]) 2
    have hrer : rerank env.rerankCfg env.predictO q docs =
        .ok ((sortDesc (scoredList docs scores)).take env.rerankCfg.top_n) := by
      by_cases hd : docs = []
      · subst hd
        simp [rerank, hq, scoredList, sortDesc]
      · simp [rerank, hq, hd, hpred]
    have hinner : retryFrom (fun _ => rerank env.rerankCfg env.predictO q docs) 0 2 =
        (1, .ok ((sortDesc (scoredList docs scores)).take env.rerankCfg.top_n)) :=
      retryFrom_first_ok _ _ 0 hrer 2
    have hst3 : retryFrom (runReranking env q docs) 0 2 =
        (1, .ok ((sortDesc (scoredList docs scores)).take env.rerankCfg.top_n)) :=
      retryFrom_first_ok _ _ 0 (by simp [runReranking, hinner]) 2
    have hgen : generate env.providers env.shuffleO env.callO
        (cotFormat q ((sortDesc (scoredList docs scores)).take env.rerankCfg.top_n))
        ((sortDesc (scoredList docs scores)).take env.rerankCfg.top_n)
        env.model_id env.max_tokens =
        .error (.runtimeError "All LLM providers failed. Check API keys and configurations.") :=
      generate_all_err _ _ _ _ _ _ _ (cotFormat_ne_empty _ _) hmid hmt hany hcall
    have hinner2 : retryFrom (fun _ => generate env.providers env.shuffleO env.callO
        (cotFormat q ((sortDesc (scoredList docs scores)).take env.rerankCfg.top_n))
        ((sortDesc (scoredList docs scores)).take env.rerankCfg.top_n)
        env.model_id env.max_tokens) 0 2 =
        (3, .error (.runtimeError "All LLM providers failed. Check API keys and configurations.")) :=
      retryFrom_const_error _ _ (fun _ => hgen) 2 0
    have hst4 : retryFrom
        (runGeneration env q ((sortDesc (scoredList docs scores)).take env.rerankCfg.top_n)) 0 2 =
        (3, .error (.runtimeError
          ("Generation failed: All LLM providers failed. Check API keys and configurations."))) :=
      retryFrom_const_error _ _ (fun k => by simp [runGeneration, hinner2, PyError.msg]) 2 0
    simp only [runPipeline, hst1, hst2, hst3, hst4, PyError.msg]
    rw [(by decide : ("Pipeline failed: " ++
        "Generation failed: All LLM providers failed. Check API keys and configurations." : String) =
      "Pipeline failed: Generation failed: All LLM providers failed. Check API keys and configurations.")]
  · intro v R p2 rest hembed hret hmid hmt hany hsh hcall hR hfa
    have hst1 : retryFrom (runEmbedding env q) 0 2 = (1, .ok v) :=
      retryFrom_first_ok _ v 0 (by simp [runEmbedding, hq, hembed 0]) 2
    have hst2 : retryFrom (runRetrieval env v) 0 2 = (1, .ok ([] : List Document)) :=
      retryFrom_first_ok _ _ 0 (by simp [runRetrieval, hret 0]) 2
    have hrer : rerank env.rerankCfg env.predictO q [] = .ok [] := by
      simp [rerank, hq]
    have hinner3 : retryFrom (fun _ => rerank env.rerankCfg env.predictO q []) 0 2 =
        (1, .ok ([] : List Document)) :=
      retryFrom_first_ok (fun _ => rerank env.rerankCfg env.predictO q []) [] 0 hrer 2
    have hst3 : retryFrom (runReranking env q []) 0 2 = (1, .ok ([] : List Document)) :=
      retryFrom_first_ok _ _ 0 (by simp [runReranking, hinner3]) 2
    have hgen : generate env.providers env.shuffleO env.callO (cotFormat q [])
        [] env.model_id env.max_tokens = .ok R :=
      generate_all_resp _ _ _ _ _ _ _ R p2 rest (cotFormat_ne_empty _ _) hmid hmt hany
        hsh hcall hR hfa
    have hinner4 : retryFrom (fun _ => generate env.providers env.shuffleO env.callO
        (cotFormat q []) [] env.model_id env.max_tokens) 0 2 = (1, .ok R) :=
      retryFrom_first_ok (fun _ => generate env.providers env.shuffleO env.callO
        (cotFormat q []) [] env.model_id env.max_tokens) R 0 hgen 2
    have hst4 : retryFrom (runGeneration env q []) 0 2 = (1, .ok R) :=
      retryFrom_first_ok _ _ 0 (by simp [runGeneration, hinner4]) 2
    have hfmt : generateResponse env.respCfg q R [] =
        .error (.valueError "Documents must be a non-empty list of Document objects.") := by
      simp [generateResponse, hq, hR]
    have hst5 : retryFrom (runFormatting env q R []) 0 2 =
        (3, .error (.runtimeError
          ("Response formatting failed: Documents must be a non-empty list of Document objects."))) :=
      retryFrom_const_error _ _
        (fun k => by simp [runFormatting, retryFrom_const_error _ _ (fun _ => hfmt) 2 0,
          PyError.msg]) 2 0
    simp only [runPipeline, hst1, hst2, hst3, hst4, hst5, PyError.msg]
    rw [(by decide : ("Pipeline failed: " ++
        "Response formatting failed: Documents must be a non-empty list of Document objects." : String) =
      "Pipeline failed: Response formatting failed: Documents must be a non-empty list of Document objects.")]
  · intro v docs scores R p2 rest hembed hret hpred hmid hmt hany hsh hcall hR hfa hrd
    have hst1 : retryFrom (runEmbedding env q) 0 2 = (1, .ok v) :=
      retryFrom_first_ok _ v 0 (by simp [runEmbedding, hq, hembed 0]) 2
    have hst2 : retryFrom (runRetrieval env v) 0 2 = (1, .ok docs) :=
      retryFrom_first_ok _ docs 0 (by simp [runRetrieval, hret 0]) 2
    have hrer : rerank env.rerankCfg env.predictO q docs =
        .ok ((sortDesc (scoredList docs scores)).take env.rerankCfg.top_n) := by
      by_cases hd : docs = []
      · subst hd
        simp [rerank, hq, scoredList, sortDesc]
      · simp [rerank, hq, hd, hpred]
    have hinner3 : retryFrom (fun _ => rerank env.rerankCfg env.predictO q docs) 0 2 =
        (1, .ok ((sortDesc (scoredList docs scores)).take env.rerankCfg.top_n)) :=
      retryFrom_first_ok (fun _ => rerank env.rerankCfg env.predictO q docs) _ 0 hrer 2
    have hst3 : retryFrom (runReranking env q docs) 0 2 =
        (1, .ok ((sortDesc (scoredList docs scores)).take env.rerankCfg.top_n)) :=
      retryFrom_first_ok _ _ 0 (by simp [runReranking, hinner3]) 2
    have hgen : generate env.providers env.shuffleO env.callO
        (cotFormat q ((sortDesc (scoredList docs scores)).take env.rerankCfg.top_n))
        ((sortDesc (scoredList docs scores)).take env.rerankCfg.top_n)
        env.model_id env.max_tokens = .ok R :=
      generate_all_resp _ _ _ _ _ _ _ R p2 rest (cotFormat_ne_empty _ _) hmid hmt hany
        hsh hcall hR hfa
    have hinner4 : retryFrom (fun _ => generate env.providers env.shuffleO env.callO
        (cotFormat q ((sortDesc (scoredList docs scores)).take env.rerankCfg.top_n))
        ((sortDesc (scoredList docs scores)).take env.rerankCfg.top_n)
        env.model_id env.max_tokens) 0 2 = (1, .ok R) :=
      retryFrom_first_ok (fun _ => generate env.providers env.shuffleO env.callO
        (cotFormat q ((sortDesc (scoredList docs scores)).take env.rerankCfg.top_n))
        ((sortDesc (scoredList docs scores)).take env.rerankCfg.top_n)
        env.model_id env.max_tokens) R 0 hgen 2
    have hst4 : retryFrom
        (runGeneration env q ((sortDesc (scoredList docs scores)).take env.rerankCfg.top_n)) 0 2 =
        (1, .ok R) :=
      retryFrom_first_ok _ _ 0 (by simp [runGeneration, hinner4]) 2
    have hfmt : generateResponse env.respCfg q R
        ((sortDesc (scoredList docs scores)).take env.rerankCfg.top_n) =
        .ok ⟨q, (parseLlmOutput R).2,
          (extractCitations ((sortDesc (scoredList docs scores)).take env.rerankCfg.top_n)
            R).take env.respCfg.max_citations⟩ := by
      rw [generateResponse, if_neg hq, if_neg hR, if_neg hrd]
    have hinner5 : retryFrom (fun _ => generateResponse env.respCfg q R
        ((sortDesc (scoredList docs scores)).take env.rerankCfg.top_n)) 0 2 =
        (1, .ok ⟨q, (parseLlmOutput R).2,
          (extractCitations ((sortDesc (scoredList docs scores)).take env.rerankCfg.top_n)
            R).take env.respCfg.max_citations⟩) :=
      retryFrom_first_ok (fun _ => generateResponse env.respCfg q R
        ((sortDesc (scoredList docs scores)).take env.rerankCfg.top_n)) _ 0 hfmt 2
    have hst5 : retryFrom (runFormatting env q R
        ((sortDesc (scoredList docs scores)).take env.rerankCfg.top_n)) 0 2 =
        (1, .ok ⟨q, (parseLlmOutput R).2,
          (extractCitations ((sortDesc (scoredList docs scores)).take env.rerankCfg.top_n)
            R).take env.respCfg.max_citations⟩) :=
      retryFrom_first_ok _ _ 0 (by simp [runFormatting, hinner5]) 2
    simp only [runPipeline, hst1, hst2, hst3, hst4, hst5]

/-- A concrete pipeline environment for the C6 witness: one provider, an
embedding service returning a fixed vector, one retrieved passage, one
cross-encoder score, and a provider response carrying both headers. -/
def pipelineWitnessEnv : RagEnv :=
  ⟨[⟨"groq", "m"⟩], id,
    fun _ _ _ => .resp "Reasoning:\nok\nFinal Answer:\nYes",
    fun _ => .ok [1, 2],
    fun _ _ => .ok [⟨"doc text", ⟨"Foo v Bar", "[2020] KEHC 1", "3", none⟩, some 7⟩],
    fun _ _ => .ok [4],
    ⟨"ce", 2⟩, ⟨5⟩, "m", 100⟩

/-- Witness for C6 at the concrete environment: the successful run returns
the assembled result record. -/
theorem pipeline_all_or_nothing_witness :
    runPipeline pipelineWitnessEnv "q" =
      .ok ⟨"q", [1, 2],
        (sortDesc (scoredList
          [⟨"doc text", ⟨"Foo v Bar", "[2020] KEHC 1", "3", none⟩, some 7⟩] [4])).take
          pipelineWitnessEnv.rerankCfg.top_n,
        (parseLlmOutput "Reasoning:\nok\nFinal Answer:\nYes").2,
        (extractCitations ((sortDesc (scoredList
          [⟨"doc text", ⟨"Foo v Bar", "[2020] KEHC 1", "3", none⟩, some 7⟩] [4])).take
          pipelineWitnessEnv.rerankCfg.top_n)
          "Reasoning:\nok\nFinal Answer:\nYes").take
          pipelineWitnessEnv.respCfg.max_citations⟩ :=
  (pipeline_all_or_nothing pipelineWitnessEnv "q" (by decide)).2.2.2.2.2
    [1, 2] [⟨"doc text", ⟨"Foo v Bar", "[2020] KEHC 1", "3", none⟩, some 7⟩] [4]
    "Reasoning:\nok\nFinal Answer:\nYes" ⟨"groq", "m"⟩ []
    (fun _ => rfl) (fun _ => rfl) rfl (by decide) (by decide) (by decide) (by decide)
    (fun _ _ _ => rfl) (by decide) (by decide) (by decide)

end CaseSearch
